import Mathlib

/-!
Verification development for the bridge-session protocol core of a
WebRTC-data-channel MCP bridge.  The definitions below are a shallow
embedding of the JavaScript `BridgeSession` class and its helpers
(`bridge-utils.js`): the replicated key/value store, the peer
handshake and MAC layer, the chunked file-transfer engine, and the
event queue.  External collaborators (the crypto library, JSON
serialization, base64 codecs, and the spool file system) are modelled
as an explicit record of abstract functions (`Ext`); the network
transport is modelled as a log of attempted protocol sends.
Timestamps are threaded as explicit integer arguments.
-/

namespace Bridge

/-- JS truthiness of an optional string value: `undefined`, `null` and
the empty string are falsy, every other string is truthy. -/
def strTruthy : Option String → Bool
  | some s => s ≠ ""
  | none => false

/-- The JS `value || null` normalization on an optional string. -/
def jsOrNone (v : Option String) : Option String :=
  if strTruthy v then v else none

/-- The JS `value || fallback` idiom on an optional string. -/
def jsOrStr (v : Option String) (fallback : String) : String :=
  match v with
  | some s => if s = "" then fallback else s
  | none => fallback

/-- `intFromValue` from bridge-utils: parse an integer, returning the
fallback unless the parse yields a finite value strictly above zero.
`none` models `undefined` / `null` / non-numeric input. -/
def intFromValue (v : Option Int) (fallback : Int) : Int :=
  match v with
  | none => fallback
  | some n => if 0 < n then n else fallback

/-- `nonNegativeIntFromValue` from bridge-utils: like `intFromValue`
but accepting zero. -/
def nonNegativeIntFromValue (v : Option Int) (fallback : Int) : Int :=
  match v with
  | none => fallback
  | some n => if 0 ≤ n then n else fallback

/-- `clampInt` from bridge-utils, for finite integer bounds. -/
def clampInt (v : Option Int) (fallback mn mx : Int) : Int :=
  let safe := match v with
    | none => fallback
    | some n => n
  min (max safe mn) mx

/-- Lookup in an association list, mirroring `Map.get`. -/
def lookupA {κ α : Type} [DecidableEq κ] (l : List (κ × α)) (k : κ) : Option α :=
  match l with
  | [] => none
  | (k1, v) :: t => if k1 = k then some v else lookupA t k

/-- Insert into an association list, mirroring `Map.set` (replaces in
place, appends when absent; insertion order is preserved). -/
def insertA {κ α : Type} [DecidableEq κ] (l : List (κ × α)) (k : κ) (v : α) : List (κ × α) :=
  match l with
  | [] => [(k, v)]
  | (k1, v1) :: t => if k1 = k then (k, v) :: t else (k1, v1) :: insertA t k v

/-- Remove from an association list, mirroring `Map.delete`. -/
def eraseA {κ α : Type} [DecidableEq κ] (l : List (κ × α)) (k : κ) : List (κ × α) :=
  match l with
  | [] => []
  | (k1, v1) :: t => if k1 = k then t else (k1, v1) :: eraseA t k

/-- Code-unit lexicographic order on character lists, modelling the JS
string `<` operator. -/
def ltChars : List Char → List Char → Bool
  | [], [] => false
  | [], _ :: _ => true
  | _ :: _, [] => false
  | c :: cs, d :: ds =>
    if c.toNat < d.toNat then true
    else if d.toNat < c.toNat then false
    else ltChars cs ds

/-- JS string comparison `a < b`. -/
def jsStrLt (a b : String) : Bool := ltChars a.data b.data

/-- JS `String.prototype.trim`: strip leading and trailing
whitespace (kernel-reducible, unlike the iterator-based core
`String.trim`). -/
def jsTrim (s : String) : String :=
  ⟨((s.data.dropWhile Char.isWhitespace).reverse.dropWhile Char.isWhitespace).reverse⟩

/-- Split a character list on a separator character (JS
`String.prototype.split` with a one-character separator). -/
def splitChars (sep : Char) : List Char → List (List Char)
  | [] => [[]]
  | c :: cs =>
    let rest := splitChars sep cs
    if c = sep then [] :: rest
    else match rest with
      | h :: t => (c :: h) :: t
      | [] => [[c]]

/-- JS `token.split(".")`. -/
def jsSplitDot (s : String) : List String :=
  (splitChars '.' s.data).map (fun l => ⟨l⟩)

/-- `kind.startsWith(prefix)` as a structural character-list check. -/
def strStartsWith (s pre : String) : Bool := pre.data.isPrefixOf s.data

theorem ltChars_irrefl (l : List Char) : ltChars l l = false := by
  induction l with
  | nil => rfl
  | cons c cs ih => simp [ltChars, ih]

theorem jsStrLt_irrefl (a : String) : jsStrLt a a = false := ltChars_irrefl a.data

theorem lookupA_insertA_self {κ α : Type} [DecidableEq κ] (l : List (κ × α)) (k : κ) (v : α) :
    lookupA (insertA l k v) k = some v := by
  induction l with
  | nil => simp [insertA, lookupA]
  | cons h t ih =>
    by_cases hk : h.1 = k
    · simp [insertA, hk, lookupA]
    · simp [insertA, hk, lookupA, ih]

theorem length_insertA_mem {κ α : Type} [DecidableEq κ] (l : List (κ × α)) (k : κ) (v : α)
    (h : (lookupA l k).isSome) : (insertA l k v).length = l.length := by
  induction l with
  | nil => simp [lookupA] at h
  | cons hd t ih =>
    by_cases hk : hd.1 = k
    · simp [insertA, hk]
    · simp [lookupA, hk] at h
      simp [insertA, hk, ih h]

theorem length_insertA_not_mem {κ α : Type} [DecidableEq κ] (l : List (κ × α)) (k : κ) (v : α)
    (h : lookupA l k = none) : (insertA l k v).length = l.length + 1 := by
  induction l with
  | nil => simp [insertA]
  | cons hd t ih =>
    by_cases hk : hd.1 = k
    · simp [lookupA, hk] at h
    · simp [lookupA, hk] at h
      simp [insertA, hk, ih h]

theorem length_insertA_le {κ α : Type} [DecidableEq κ] (l : List (κ × α)) (k : κ) (v : α) :
    (insertA l k v).length ≤ l.length + 1 := by
  by_cases h : (lookupA l k).isSome
  · rw [length_insertA_mem l k v h]; omega
  · rw [length_insertA_not_mem l k v (by simpa [Option.not_isSome_iff_eq_none] using h)]

/-- Advertised capability set of a peer (`payload.capabilities`),
kept abstract as a list of named flags. -/
def Caps := List (String × Bool)
deriving DecidableEq, Repr, Inhabited

/-- Decoded payload of a join token (`{room, stream_id, exp, nonce}`).
`none` models an absent or non-numeric / non-string field. -/
structure JoinPayload where
  room : Option String := none
  stream_id : Option String := none
  exp : Option Int := none
deriving DecidableEq, Repr, Inhabited

/-- A state patch object as received on the wire (also the element
shape of a snapshot's `entries` array). -/
structure PatchObj where
  key : Option String := none
  value : Option String := none
  actor : Option String := none
  clock : Option Int := none
  updated_at : Option Int := none
deriving DecidableEq, Repr, Inhabited

/-- The dynamic JSON payload of a protocol envelope.  JS carries one
untyped object; the model carries every field any handler reads, each
optional.  State values are opaque JSON blobs modelled as strings. -/
structure Payload where
  join_token : Option String := none
  public_key : Option String := none
  capabilities : Option Caps := none
  reason : Option String := none
  transfer_id : Option String := none
  name : Option String := none
  mime : Option String := none
  total_bytes : Option Int := none
  total_chunks : Option Int := none
  chunk_bytes : Option Int := none
  file_hash : Option String := none
  seq : Option Int := none
  data_base64 : Option String := none
  chunk_hash : Option String := none
  next_seq : Option Int := none
  expected_seq : Option Int := none
  received_bytes : Option Int := none
  status : Option String := none
  key : Option String := none
  value : Option String := none
  actor : Option String := none
  clock : Option Int := none
  updated_at : Option Int := none
  entries : Option (List PatchObj) := none
  actor_clock : Option (List (String × Int)) := none
  room : Option String := none
  stream_id : Option String := none
  requester_stream_id : Option String := none
  generated_at : Option Int := none
deriving DecidableEq, Repr, Inhabited

/-- A protocol envelope (`{magic, kind, ts, nonce, room,
from_stream_id, payload, mac?}`); the magic constant is implicit in
the type. -/
structure Envelope where
  kind : String
  ts : Int := 0
  nonce : String := ""
  room : String := ""
  from_stream_id : String := ""
  payload : Payload := {}
  mac : Option String := none
deriving DecidableEq, Repr, Inhabited

/-- The exact field subset covered by the session MAC, in canonical
order (`signaturePayload`). -/
structure SigFields where
  kind : String
  ts : Int
  nonce : String
  room : String
  from_stream_id : String
  payload : Payload
deriving DecidableEq, Repr

/-- External collaborators of the session: the crypto library, JSON
and base64 codecs, X25519 key agreement, and the spool file system.
The embedding is parametric in these; theorems hold for every
instantiation, and witnesses instantiate them concretely. -/
structure Ext where
  sha256Hex : List Nat → String
  hmacSha256Hex : String → String → String
  stringifySig : SigFields → String
  b64decode : String → List Nat
  hmacJoinB64 : String → String → String
  tokenParse : String → Option JoinPayload
  deriveShared : String → Option String
  spoolHash : List (Int × List Nat) → String
  spoolSize : List (Int × List Nat) → Int

/-- A user-visible event (`queueEvent`): a `type` tag plus the
type-specific fields used by the handlers under verification. -/
structure Event where
  type : String
  ts : Int := 0
  uuid : Option String := none
  streamId : Option String := none
  reason : Option String := none
  kind : Option String := none
  key : Option String := none
  actor : Option String := none
  clock : Option Int := none
  value : Option String := none
  source : Option String := none
  transferId : Option String := none
  seq : Option Int := none
  nextSeq : Option Int := none
  receivedBytes : Option Int := none
  totalBytes : Option Int := none
  totalChunks : Option Int := none
  name : Option String := none
  mime : Option String := none
  fileHash : Option String := none
  spooled : Option Bool := none
  handshakeState : Option String := none
  authOk : Option Bool := none
  sharedKeyReady : Option Bool := none
  applied : Option Int := none
  offered : Option Int := none
deriving DecidableEq, Repr, Inhabited

/-- An internal protocol-bus event (`recordProtocolEvent`). -/
structure PEvent where
  kind : String
  fromUuid : Option String := none
  transferId : Option String := none
  reason : Option String := none
  nextSeq : Option Int := none
  payloadKind : Option String := none
  cursor : Int := 0
deriving DecidableEq, Repr, Inhabited

/-- A protocol envelope handed to the transport (`sendProtocol`).
Envelope assembly (timestamps, nonce, capability enrichment, MAC
attachment) and channel-readiness checks live between this log and
the wire; the claims under verification depend only on which
protocol messages are attempted. -/
structure Sent where
  kind : String
  payload : Payload := {}
  target : Option String := none
deriving DecidableEq, Repr, Inhabited

/-- A replicated state entry. -/
structure StateEntry where
  key : String
  value : Option String := none
  actor : String
  clock : Int
  updated_at : Int := 0
deriving DecidableEq, Repr, Inhabited

/-- A peer record. -/
structure Peer where
  uuid : String
  stream_id : Option String := none
  connected : Bool := true
  last_seen_at : Int := 0
  last_heartbeat_at : Option Int := none
  handshake_state : String := "discovered"
  auth_ok : Bool := true
  rejected_reason : Option String := none
  shared_key_ready : Bool := false
  capabilities : Option Caps := none
  token_payload : Option JoinPayload := none
deriving DecidableEq, Repr, Inhabited

/-- An incoming transfer record.  `spool_open` models an integer
`spool_fd`; `spool_exists` models a non-null `spool_path`;
`spoolData` records the positional writes issued to the spool file
(keyed by byte offset). -/
structure IncomingTransfer where
  transfer_id : String
  status : String := "receiving"
  from_uuid : Option String := none
  from_stream_id : Option String := none
  name : Option String := none
  mime : String := "application/octet-stream"
  total_bytes : Int := 0
  total_chunks : Int := 0
  chunk_bytes : Int := 0
  file_hash : Option String := none
  received_chunks : List Int := []
  chunks : List (Int × List Nat) := []
  received_bytes : Int := 0
  spooled : Bool := false
  spool_open : Bool := false
  spool_exists : Bool := false
  spoolData : List (Int × List Nat) := []
  created_at : Int := 0
  updated_at : Int := 0
  completed_at : Option Int := none
  complete_received : Bool := false
  last_error : Option String := none
  data : Option (List Nat) := none
deriving DecidableEq, Repr, Inhabited

/-- An outgoing transfer record (the fields touched by the inbound
`file.accept` / `file.ack` / `file.nack` / `file.complete_ack` /
`file.resume_state` handlers and the completion phase). -/
structure OutgoingTransfer where
  transfer_id : String
  status : String := "offered"
  next_seq : Int := 0
  acked_chunks : List Int := []
  total_bytes : Int := 0
  total_chunks : Int := 0
  chunk_bytes : Int := 0
  target_uuid : Option String := none
  file_hash : Option String := none
  retries_total : Int := 0
  last_error : Option String := none
  updated_at : Int := 0
  completed_at : Option Int := none
deriving DecidableEq, Repr, Inhabited

/-- The session configuration after constructor normalization
(`intFromValue` defaults, trimmed secrets).  Numeric fields obtained
through `intFromValue` are strictly positive. -/
structure Config where
  room : String := ""
  streamID : String := ""
  requireSessionMac : Bool := false
  enforceJoinToken : Bool := false
  joinToken : Option String := none
  joinTokenSecret : Option String := none
  joinTokenTtlMs : Int := 600000
  allowPeerStreamIDs : List String := []
  fileChunkBytes : Int := 65536
  fileMaxBytes : Int := 67108864
  fileAckTimeoutMs : Int := 1200
  fileMaxRetries : Int := 6
  maxStoredFiles : Int := 12
  fileSpoolThresholdBytes : Int := 4194304
  keepSpoolFiles : Bool := false
  stateMaxKeys : Int := 2048
  stateMaxSnapshotEntries : Int := 4096
  maxQueueSize : Int := 2000
  keyAgreementEnabled : Bool := true
deriving DecidableEq, Repr, Inhabited

/-- The mutable session state relevant to the protocol engines: peer
registry, derived shared keys, event queue, protocol bus, replicated
state store, transfer registries, and the outbound send log. -/
structure Session where
  config : Config := {}
  peerState : List (String × Peer) := []
  sharedKeys : List (String × String) := []
  eventQueue : List Event := []
  protocolEvents : List PEvent := []
  protocolCursor : Int := 0
  roomState : List (String × StateEntry) := []
  stateActorClock : List (String × Int) := []
  stateClock : Int := 0
  incomingTransfers : List (String × IncomingTransfer) := []
  outgoingTransfers : List (String × OutgoingTransfer) := []
  completedIncomingOrder : List String := []
  completedOutgoingOrder : List String := []
  sends : List Sent := []
deriving DecidableEq, Repr, Inhabited

/-- Bounded append used by `queueEvent`: push and drop the oldest
entries when the cap would be exceeded. -/
def pushBounded (cap : Int) (q : List Event) (e : Event) : List Event :=
  let q2 := q ++ [e]
  if cap < (q2.length : Int) then q2.drop (q2.length - cap.toNat) else q2

/-- `queueEvent`: append to the bounded FIFO, dropping the oldest
entries when the configured cap would be exceeded. -/
def queueEvent (s : Session) (e : Event) : Session :=
  { s with eventQueue := pushBounded s.config.maxQueueSize s.eventQueue e }

/-- Bounded append used by `recordProtocolEvent` (4000-entry cap). -/
def pushPBounded (q : List PEvent) (e : PEvent) : List PEvent :=
  let q2 := q ++ [e]
  if 4000 < q2.length then q2.drop (q2.length - 4000) else q2

/-- `recordProtocolEvent`: stamp with the next cursor, append to the
protocol bus, and trim to the 4000-entry cap. -/
def recordProtocolEvent (s : Session) (e : PEvent) : Session :=
  { s with protocolCursor := s.protocolCursor + 1
           protocolEvents := pushPBounded s.protocolEvents { e with cursor := s.protocolCursor + 1 } }

/-- `sendProtocol`: hand a protocol envelope of the given kind and
payload to the transport for the given target. -/
def sendProtocol (s : Session) (kind : String) (payload : Payload) (target : Option String) : Session :=
  { s with sends := s.sends ++ [{ kind := kind, payload := payload, target := target }] }

/-- `stateShouldApply`: last-writer-wins dominance.  The incoming
entry wins on a strictly larger clock, or on an equal clock with a
lexicographically larger actor. -/
def stateShouldApply (existing : Option StateEntry) (incoming : StateEntry) : Bool :=
  match existing with
  | none => true
  | some e =>
    let incomingClock := intFromValue (some incoming.clock) 0
    let existingClock := intFromValue (some e.clock) 0
    if existingClock < incomingClock then true
    else if incomingClock < existingClock then false
    else jsStrLt e.actor incoming.actor

/-- `asStateEntry`: normalize a raw entry; a falsy actor defaults to
the local stream id and the clock is parsed through `intFromValue`. -/
def asStateEntry (streamID : String) (key : String) (value : Option String)
    (actor : Option String) (clock : Option Int) (updatedAt : Int) : StateEntry :=
  { key := key
    value := value
    actor := jsOrStr actor streamID
    clock := intFromValue clock 0
    updated_at := updatedAt }

/-- `markStateActorClock`: per-actor clock map update, monotone max. -/
def markStateActorClock (streamID : String) (m : List (String × Int))
    (actor : String) (clock : Option Int) : List (String × Int) :=
  let safeActor := if actor = "" then streamID else actor
  let parsed := intFromValue clock 0
  let current := intFromValue (lookupA m safeActor) 0
  if current < parsed then insertA m safeActor parsed else m

/-- Result record of `applyStatePatch`. -/
structure ApplyResult where
  applied : Bool
  reason : Option String := none
deriving DecidableEq, Repr, Inhabited

/-- `applyStatePatch`: validate the patch, compare it against the
existing entry under the last-writer-wins order, enforce the key cap
for fresh keys, store, update the actor-clock map, and emit a
`state_updated` event. -/
def applyStatePatch (s : Session) (patchOpt : Option PatchObj) (now : Int) (source : String) :
    Session × ApplyResult :=
  match patchOpt with
  | none => (s, { applied := false, reason := some "invalid_patch" })
  | some patch =>
    let key := (jsTrim (patch.key.getD ""))
    if key = "" then (s, { applied := false, reason := some "missing_key" })
    else
      let incoming := asStateEntry s.config.streamID key patch.value patch.actor patch.clock
        (patch.updated_at.getD now)
      if incoming.clock ≤ 0 then (s, { applied := false, reason := some "invalid_clock" })
      else
        let existing := lookupA s.roomState key
        if ¬ stateShouldApply existing incoming then
          (s, { applied := false, reason := some "stale_patch" })
        else if existing = none ∧ s.config.stateMaxKeys ≤ (s.roomState.length : Int) then
          (s, { applied := false, reason := some "state_key_limit_reached" })
        else
          let rs := insertA s.roomState incoming.key incoming
          let ac := markStateActorClock s.config.streamID s.stateActorClock incoming.actor
            (some incoming.clock)
          let localActorClock := intFromValue (lookupA ac s.config.streamID) 0
          let s1 := { s with roomState := rs, stateActorClock := ac,
                             stateClock := max s.stateClock localActorClock }
          let s2 := queueEvent s1
            { type := "state_updated", ts := now, source := some source,
              key := some incoming.key, actor := some incoming.actor,
              clock := some incoming.clock, value := incoming.value }
          (s2, { applied := true })

/-- Wire shape of a state entry inside a `state.patch` broadcast. -/
def payloadOfEntry (e : StateEntry) : Payload :=
  { key := some e.key, value := e.value, actor := some e.actor,
    clock := some e.clock, updated_at := some e.updated_at }

/-- `setLocalState`: bump the local clock, store the entry without a
key-cap check, update the actor-clock map, optionally broadcast a
`state.patch`, and emit a local `state_updated` event.  An empty key
throws. -/
def setLocalState (s : Session) (key : Option String) (value : Option String)
    (broadcast : Bool) (target : Option String) (now : Int) :
    Except String (Session × StateEntry) :=
  let safeKey := (jsTrim (key.getD ""))
  if safeKey = "" then .error "state key is required"
  else
    let clock := s.stateClock + 1
    let entry := asStateEntry s.config.streamID safeKey value (some s.config.streamID)
      (some clock) now
    let s1 := { s with stateClock := clock,
                       roomState := insertA s.roomState entry.key entry }
    let s2 := { s1 with stateActorClock :=
      markStateActorClock s.config.streamID s1.stateActorClock entry.actor (some entry.clock) }
    let s3 := if broadcast then sendProtocol s2 "state.patch" (payloadOfEntry entry) target else s2
    let s4 := queueEvent s3
      { type := "state_updated", ts := now, source := some "local",
        key := some entry.key, actor := some entry.actor,
        clock := some entry.clock, value := entry.value }
    .ok (s4, entry)

/-- Insertion sort of state entries by key, modelling the
`localeCompare` ordering of `listStateEntries` (order-irrelevant for
the claims below). -/
def insertSortedEntry (e : StateEntry) : List StateEntry → List StateEntry
  | [] => [e]
  | x :: xs => if jsStrLt e.key x.key then e :: x :: xs else x :: insertSortedEntry e xs

/-- Sorted list of state entries (`listStateEntries`). -/
def listStateEntries (s : Session) : List StateEntry :=
  (s.roomState.map Prod.snd).foldr insertSortedEntry []

/-- `getStateSnapshot`: room, stream id, sorted entries truncated to
the snapshot cap, and the actor-clock map. -/
def getStateSnapshot (s : Session) (now : Int) : Payload :=
  { room := some s.config.room
    stream_id := some s.config.streamID
    entries := some (((listStateEntries s).take s.config.stateMaxSnapshotEntries.toNat).map
      (fun e => { key := some e.key, value := e.value, actor := some e.actor,
                  clock := some e.clock, updated_at := some e.updated_at }))
    actor_clock := some s.stateActorClock
    generated_at := some now }

/-- The canonical field subset of an envelope covered by the MAC. -/
def signatureFields (e : Envelope) : SigFields :=
  { kind := e.kind, ts := e.ts, nonce := e.nonce, room := e.room,
    from_stream_id := e.from_stream_id, payload := e.payload }

/-- `computeEnvelopeMac`: HMAC-SHA256 (lowercase hex) of the
canonical serialization of the envelope under the shared key. -/
def computeEnvelopeMac (ext : Ext) (key : String) (e : Envelope) : String :=
  ext.hmacSha256Hex key (ext.stringifySig (signatureFields e))

/-- `verifyEnvelopeMac`: an envelope with a non-empty `mac` string
must have a shared key for the sender and match the recomputed MAC;
an envelope without one passes exactly when `require_session_mac` is
unset. -/
def verifyEnvelopeMac (ext : Ext) (s : Session) (uuid : Option String) (e : Envelope) : Bool :=
  let hasMac := match e.mac with
    | some m => m != ""
    | none => false
  let sharedKey := match uuid with
    | some u => lookupA s.sharedKeys u
    | none => none
  if hasMac then
    match sharedKey with
    | none => false
    | some k => e.mac == some (computeEnvelopeMac ext k e)
  else !s.config.requireSessionMac

/-- `touchPeer`: create or refresh a peer record; a falsy uuid is a
no-op. -/
def touchPeer (s : Session) (uuid : Option String) (streamID : Option String) (now : Int) :
    Session :=
  match uuid with
  | none => s
  | some u =>
    if u = "" then s
    else
      let peer := match lookupA s.peerState u with
        | some p => p
        | none => { uuid := u }
      let peer2 := { peer with
        connected := true
        last_seen_at := now
        stream_id := if strTruthy streamID then streamID else peer.stream_id }
      { s with peerState := insertA s.peerState u peer2 }

/-- Update the peer record for a truthy uuid, if present (the JS
handlers guard with `if (peer)` on the object `touchPeer` returned). -/
def updatePeer (s : Session) (uuid : Option String) (f : Peer → Peer) : Session :=
  match uuid with
  | none => s
  | some u =>
    if u = "" then s
    else match lookupA s.peerState u with
      | some p => { s with peerState := insertA s.peerState u (f p) }
      | none => s

/-- `isPeerAllowed`: an empty allowlist admits everyone; otherwise
the stream id must be truthy and listed. -/
def isPeerAllowed (cfg : Config) (streamID : Option String) : Bool :=
  if cfg.allowPeerStreamIDs.isEmpty then true
  else strTruthy streamID && (match streamID with
    | some sid => cfg.allowPeerStreamIDs.contains sid
    | none => false)

/-- `maybeDeriveSharedKey`: derive the X25519 shared secret for a
peer from its advertised public key, store it, and mark the peer
`shared_key_ready`; decode or agreement failure is a no-op. -/
def maybeDeriveSharedKey (ext : Ext) (s : Session) (uuid : Option String)
    (remotePub : Option String) (now : Int) : Session × Bool :=
  if ¬ s.config.keyAgreementEnabled then (s, false)
  else if ¬ strTruthy uuid ∨ ¬ strTruthy remotePub then (s, false)
  else
    let u := uuid.getD ""
    match ext.deriveShared (remotePub.getD "") with
    | none => (s, false)
    | some shared =>
      let s1 := { s with sharedKeys := insertA s.sharedKeys u shared }
      let s2 := touchPeer s1 uuid none now
      let s3 := updatePeer s2 uuid (fun p => { p with shared_key_ready := true })
      (s3, true)

/-- Result of join-token validation. -/
structure TokenCheck where
  ok : Bool
  payload : Option JoinPayload := none
  error : Option String := none
deriving DecidableEq, Repr, Inhabited

/-- `verifyJoinToken` from bridge-utils: split on `.` into exactly a
body and a signature, recompute the HMAC over the body, decode and
parse the body as JSON. -/
def verifyJoinToken (ext : Ext) (token : String) (secret : String) : TokenCheck :=
  if token = "" then { ok := false, error := some "token must be a non-empty string" }
  else
    let parts := jsSplitDot token
    if parts.length ≠ 2 then { ok := false, error := some "invalid token format" }
    else
      let body := parts.headD ""
      let sig := (parts.drop 1).headD ""
      let expectedSig := ext.hmacJoinB64 secret body
      if sig ≠ expectedSig then { ok := false, error := some "invalid token signature" }
      else match ext.tokenParse body with
        | none => { ok := false, error := some "invalid token payload" }
        | some payload => { ok := true, payload := some payload }

/-- `BridgeSession.validateJoinToken`: with no configured secret, a
token is only checked for presence when enforcement is on; with a
secret, verify the signature and then the room / stream-id / expiry
constraints of the decoded payload. -/
def validateJoinToken (ext : Ext) (cfg : Config) (token : Option String)
    (streamID : Option String) (now : Int) : TokenCheck :=
  match cfg.joinTokenSecret with
  | none =>
    if cfg.enforceJoinToken ∧ ¬ strTruthy token then
      { ok := false, error := some "join token required" }
    else { ok := true }
  | some secret =>
    if ¬ strTruthy token then
      if cfg.enforceJoinToken then { ok := false, error := some "join token required" }
      else { ok := true }
    else
      let verified := verifyJoinToken ext (token.getD "") secret
      if ¬ verified.ok then verified
      else
        let payload := verified.payload.getD {}
        if strTruthy payload.room ∧ payload.room ≠ some cfg.room then
          { ok := false, error := some "join token room mismatch" }
        else if strTruthy payload.stream_id ∧ strTruthy streamID ∧ payload.stream_id ≠ streamID then
          { ok := false, error := some "join token stream mismatch" }
        else match payload.exp with
          | some e =>
            if e ≠ 0 ∧ e < now then { ok := false, error := some "join token expired" }
            else { ok := true, payload := some payload }
          | none => { ok := true, payload := some payload }

/-- `handleSyncMessage`: allowlist screening, heartbeat bookkeeping,
peer rejection, join-token validation, capability and key-agreement
bookkeeping, and the hello / hello-ack replies. -/
def handleSyncMessage (ext : Ext) (s : Session) (fromUuid fromStreamID : Option String)
    (kind : String) (payload : Payload) (now : Int) : Session :=
  let s0 := touchPeer s fromUuid fromStreamID now
  if strTruthy fromStreamID ∧ ¬ isPeerAllowed s.config fromStreamID then
    let s1 := updatePeer s0 fromUuid (fun p =>
      { p with handshake_state := "rejected", auth_ok := false,
               rejected_reason := some "peer not on allowlist" })
    let s2 := queueEvent s1
      { type := "sync_peer_rejected", ts := now, uuid := jsOrNone fromUuid,
        streamId := jsOrNone fromStreamID, reason := some "peer_not_allowed" }
    recordProtocolEvent s2
      { kind := "sync.reject", fromUuid := jsOrNone fromUuid, reason := some "peer_not_allowed" }
  else if kind = "sync.heartbeat" then
    updatePeer s0 fromUuid (fun p => { p with last_heartbeat_at := some now })
  else if kind ≠ "sync.hello" ∧ kind ≠ "sync.hello_ack" ∧ kind ≠ "sync.reject" then s0
  else if kind = "sync.reject" then
    let reasonStr := jsOrStr payload.reason "rejected_by_peer"
    let s1 := updatePeer s0 fromUuid (fun p =>
      { p with handshake_state := "rejected", auth_ok := false,
               rejected_reason := some reasonStr })
    let eventReason := if strTruthy fromUuid then reasonStr else "rejected_by_peer"
    let s2 := queueEvent s1
      { type := "sync_peer_rejected", ts := now, uuid := jsOrNone fromUuid,
        streamId := jsOrNone fromStreamID, reason := some eventReason }
    recordProtocolEvent s2 { kind := kind, fromUuid := jsOrNone fromUuid }
  else
    let token := payload.join_token
    let tokenCheck := validateJoinToken ext s.config token fromStreamID now
    if ¬ tokenCheck.ok ∧ s.config.enforceJoinToken then
      let s1 := updatePeer s0 fromUuid (fun p =>
        { p with handshake_state := "rejected", auth_ok := false,
                 rejected_reason := tokenCheck.error })
      let s2 := sendProtocol s1 "sync.reject" { reason := tokenCheck.error } (jsOrNone fromUuid)
      let s3 := queueEvent s2
        { type := "sync_peer_rejected", ts := now, uuid := jsOrNone fromUuid,
          streamId := jsOrNone fromStreamID, reason := tokenCheck.error }
      recordProtocolEvent s3
        { kind := "sync.reject", fromUuid := jsOrNone fromUuid, reason := tokenCheck.error }
    else
      let s1 := updatePeer s0 fromUuid (fun p =>
        { p with auth_ok := tokenCheck.ok, token_payload := tokenCheck.payload,
                 handshake_state := if kind = "sync.hello_ack" then "ready" else "hello_received",
                 capabilities := payload.capabilities })
      let s2 := if strTruthy payload.public_key then
        (maybeDeriveSharedKey ext s1 fromUuid payload.public_key now).1 else s1
      let peerNow := match fromUuid with
        | some u => lookupA s2.peerState u
        | none => none
      let s3 := queueEvent s2
        { type := "sync_peer_updated", ts := now, uuid := jsOrNone fromUuid,
          streamId := jsOrNone fromStreamID,
          handshakeState := some (match peerNow with
            | some p => p.handshake_state
            | none => "unknown"),
          authOk := some (match peerNow with
            | some p => p.auth_ok
            | none => false),
          sharedKeyReady := some (match peerNow with
            | some p => p.shared_key_ready
            | none => false) }
      let s4 := recordProtocolEvent s3 { kind := kind, fromUuid := jsOrNone fromUuid }
      if kind = "sync.hello" then
        let s5 := sendProtocol s4 "sync.hello_ack" {} (jsOrNone fromUuid)
        sendProtocol s5 "state.snapshot_req"
          { room := some s.config.room, requester_stream_id := some s.config.streamID }
          (jsOrNone fromUuid)
      else
        sendProtocol s4 "state.snapshot_req"
          { room := some s.config.room, requester_stream_id := some s.config.streamID }
          (jsOrNone fromUuid)

/-- `nextMissingSeq`: the first sequence number in
`0..total_chunks-1` not yet received, or `total_chunks`. -/
def nextMissingSeq (t : IncomingTransfer) : Int :=
  match (List.range t.total_chunks.toNat).find? (fun i => ! t.received_chunks.contains (i : Int)) with
  | some i => (i : Int)
  | none => t.total_chunks

/-- Ceiling division for positive integers (`Math.ceil(a / b)`). -/
def ceilDiv (a b : Int) : Int := (a + b - 1) / b

/-- `createIncomingTransfer`: validate the offer bounds, decide
spooling by the threshold, and build the fresh transfer record.
Errors are thrown (`Except.error`) with the nack reason. -/
def createIncomingTransfer (cfg : Config) (fromUuid fromStreamID : Option String)
    (payload : Payload) (now : Int) : Except String IncomingTransfer :=
  let totalBytes := intFromValue payload.total_bytes 0
  let totalChunks := intFromValue payload.total_chunks 0
  let chunkBytes := clampInt payload.chunk_bytes cfg.fileChunkBytes 1024 262144
  if ¬ strTruthy payload.transfer_id then .error "invalid transfer_id"
  else if totalBytes ≤ 0 ∨ cfg.fileMaxBytes < totalBytes then
    .error "total_bytes out of range"
  else if totalChunks ≤ 0 ∨ ceilDiv cfg.fileMaxBytes 1024 < totalChunks then
    .error "invalid total_chunks"
  else
    let useSpool := cfg.fileSpoolThresholdBytes ≤ totalBytes
    .ok { transfer_id := payload.transfer_id.getD ""
          status := "receiving"
          from_uuid := jsOrNone fromUuid
          from_stream_id := jsOrNone fromStreamID
          name := jsOrNone payload.name
          mime := jsOrStr payload.mime "application/octet-stream"
          total_bytes := totalBytes
          total_chunks := totalChunks
          chunk_bytes := chunkBytes
          file_hash := jsOrNone payload.file_hash
          spooled := useSpool
          spool_open := useSpool
          spool_exists := useSpool
          created_at := now
          updated_at := now }

/-- Concatenate the in-memory chunk array in order; `none` when any
chunk slot is empty. -/
def gatherChunks (t : IncomingTransfer) : Option (List Nat) :=
  (List.range t.total_chunks.toNat).foldl
    (fun acc i =>
      match acc with
      | none => none
      | some l =>
        match lookupA t.chunks (i : Int) with
        | none => none
        | some b => some (l ++ b))
    (some [])

/-- The eviction loop of `maybeFinalizeIncomingTransfer`: while the
completed-order list exceeds `maxStoredFiles`, shift the oldest id
and delete that transfer (releasing its storage).  Returns the
remaining order list and the pruned registry. -/
def evictIncomingLoop (maxStored : Int) :
    List String → List (String × IncomingTransfer) → List String × List (String × IncomingTransfer)
  | [], m => ([], m)
  | id :: rest, m =>
    if maxStored < ((id :: rest).length : Int) then
      if id = "" then evictIncomingLoop maxStored rest m
      else evictIncomingLoop maxStored rest (eraseA m id)
    else (id :: rest, m)

/-- `maybeFinalizeIncomingTransfer`: when all chunks are present,
close the spool descriptor, stream (or concatenate) and hash the
payload, verify size and expected hash, mark the transfer completed,
append it to the bounded completed-order list with LRU eviction,
emit `file_received`, and reply `file.complete_ack`. -/
def maybeFinalizeIncomingTransfer (ext : Ext) (s : Session) (tid : String)
    (fromUuid : Option String) (now : Int) : Session × Bool :=
  match lookupA s.incomingTransfers tid with
  | none => (s, false)
  | some t =>
    if ((t.received_chunks.length : Int) ≠ t.total_chunks) then (s, false)
    else
      let hashed : Option (IncomingTransfer × String) :=
        if t.spooled ∧ t.spool_exists then
          let t1 := { t with spool_open := false }
          if ext.spoolSize t.spoolData ≠ t.total_bytes then none
          else some (t1, ext.spoolHash t.spoolData)
        else
          match gatherChunks t with
          | none => none
          | some full =>
            if ((full.length : Int) ≠ t.total_bytes) then none
            else some ({ t with data := some full }, ext.sha256Hex full)
      match hashed with
      | none =>
        -- a size mismatch (or missing chunk slot) marks the transfer
        -- failed with a byte-size error and aborts finalization; a
        -- missing in-memory slot merely aborts
        let sizeKnown : Bool :=
          if t.spooled ∧ t.spool_exists then true
          else (gatherChunks t).isSome
        if sizeKnown then
          let t2 := { t with spool_open := if t.spooled ∧ t.spool_exists then false else t.spool_open,
                             status := "failed", last_error := some "byte size mismatch" }
          ({ s with incomingTransfers := insertA s.incomingTransfers tid t2 }, false)
        else (s, false)
      | some (t1, computed) =>
        if strTruthy t.file_hash ∧ t.file_hash ≠ some computed then
          let t2 := { t1 with status := "failed", last_error := some "file hash mismatch" }
          ({ s with incomingTransfers := insertA s.incomingTransfers tid t2 }, false)
        else
          let t2 := { t1 with status := "completed", completed_at := some now, updated_at := now }
          let s1 := { s with incomingTransfers := insertA s.incomingTransfers tid t2 }
          let order := s1.completedIncomingOrder ++ [tid]
          let evicted := evictIncomingLoop s.config.maxStoredFiles order s1.incomingTransfers
          let s2 := { s1 with completedIncomingOrder := evicted.1, incomingTransfers := evicted.2 }
          let s3 := queueEvent s2
            { type := "file_received", ts := now, transferId := some tid,
              uuid := t2.from_uuid, streamId := t2.from_stream_id, name := t2.name,
              mime := some t2.mime, totalBytes := some t2.total_bytes,
              fileHash := some computed, spooled := some t2.spooled }
          let s4 := sendProtocol s3 "file.complete_ack"
            { transfer_id := some tid, file_hash := some computed,
              total_bytes := some t2.total_bytes } (jsOrNone fromUuid)
          (s4, true)

/-- The `file.offer` branch of `handleFileMessage`: create (or
idempotently reuse) the incoming transfer and reply `file.accept`
with the first missing sequence, or nack a rejected offer. -/
def handleFileOffer (s : Session) (fromUuid fromStreamID : Option String)
    (payload : Payload) (now : Int) : Session :=
  let tidOpt := payload.transfer_id
  let tid := tidOpt.getD ""
  let acceptWith (s0 : Session) (incoming : IncomingTransfer) : Session :=
    let incoming2 := { incoming with updated_at := now }
    let s1 := { s0 with incomingTransfers := insertA s0.incomingTransfers tid incoming2 }
    let nextSeq := nextMissingSeq incoming2
    let s2 := sendProtocol s1 "file.accept"
      { transfer_id := tidOpt, next_seq := some nextSeq } (jsOrNone fromUuid)
    let s3 := queueEvent s2
      { type := "file_offer_received", ts := now, transferId := tidOpt,
        uuid := jsOrNone fromUuid, streamId := jsOrNone fromStreamID,
        totalBytes := some incoming2.total_bytes, totalChunks := some incoming2.total_chunks,
        nextSeq := some nextSeq, name := incoming2.name, mime := some incoming2.mime }
    recordProtocolEvent s3
      { kind := "file.accept", fromUuid := jsOrNone fromUuid, transferId := tidOpt,
        nextSeq := some nextSeq }
  match lookupA s.incomingTransfers tid with
  | some incoming => acceptWith s incoming
  | none =>
    match createIncomingTransfer s.config fromUuid fromStreamID payload now with
    | .error msg =>
      let s1 := sendProtocol s "file.nack"
        { transfer_id := tidOpt, expected_seq := some 0, reason := some msg }
        (jsOrNone fromUuid)
      let s2 := queueEvent s1
        { type := "file_offer_rejected", ts := now, transferId := tidOpt, reason := some msg }
      recordProtocolEvent s2
        { kind := "file.nack", fromUuid := jsOrNone fromUuid, transferId := tidOpt,
          reason := some msg }
    | .ok created => acceptWith s created

/-- The `file.chunk` branch of `handleFileMessage`: validate range,
decode and hash-check the chunk, store it exactly once (spool write
or array slot), ACK with the first missing sequence, and finalize
when the sender already signalled completion and nothing is
missing. -/
def handleFileChunk (ext : Ext) (s : Session) (fromUuid : Option String)
    (payload : Payload) (now : Int) : Session :=
  let tidOpt := payload.transfer_id
  let tid := tidOpt.getD ""
  match lookupA s.incomingTransfers tid with
  | none =>
    let s1 := sendProtocol s "file.nack"
      { transfer_id := tidOpt, expected_seq := some 0, reason := some "unknown_transfer" }
      (jsOrNone fromUuid)
    recordProtocolEvent s1
      { kind := "file.nack", fromUuid := jsOrNone fromUuid, transferId := tidOpt }
  | some incoming =>
    let seq := nonNegativeIntFromValue payload.seq (-1)
    if seq < 0 ∨ incoming.total_chunks ≤ seq then
      let expectedSeq := nextMissingSeq incoming
      let s1 := sendProtocol s "file.nack"
        { transfer_id := tidOpt, expected_seq := some expectedSeq,
          reason := some "out_of_range_seq" } (jsOrNone fromUuid)
      recordProtocolEvent s1
        { kind := "file.nack", fromUuid := jsOrNone fromUuid, transferId := tidOpt }
    else
      let chunkBuffer := ext.b64decode (jsOrStr payload.data_base64 "")
      if chunkBuffer.isEmpty then
        let expectedSeq := nextMissingSeq incoming
        let s1 := sendProtocol s "file.nack"
          { transfer_id := tidOpt, expected_seq := some expectedSeq,
            reason := some "invalid_chunk_data" } (jsOrNone fromUuid)
        recordProtocolEvent s1
          { kind := "file.nack", fromUuid := jsOrNone fromUuid, transferId := tidOpt }
      else
        let chunkHash := ext.sha256Hex chunkBuffer
        if strTruthy payload.chunk_hash ∧ payload.chunk_hash ≠ some chunkHash then
          let expectedSeq := nextMissingSeq incoming
          let s1 := sendProtocol s "file.nack"
            { transfer_id := tidOpt, expected_seq := some expectedSeq,
              reason := some "chunk_hash_mismatch" } (jsOrNone fromUuid)
          let s2 := queueEvent s1
            { type := "file_chunk_rejected", ts := now, transferId := tidOpt,
              seq := some seq, reason := some "chunk_hash_mismatch" }
          recordProtocolEvent s2
            { kind := "file.nack", fromUuid := jsOrNone fromUuid, transferId := tidOpt,
              reason := some "chunk_hash_mismatch" }
        else
          let incoming2 :=
            if incoming.received_chunks.contains seq then incoming
            else if incoming.spooled ∧ incoming.spool_open then
              { incoming with
                received_chunks := incoming.received_chunks ++ [seq]
                spoolData := insertA incoming.spoolData (seq * incoming.chunk_bytes) chunkBuffer
                received_bytes := incoming.received_bytes + (chunkBuffer.length : Int) }
            else
              { incoming with
                received_chunks := incoming.received_chunks ++ [seq]
                chunks := insertA incoming.chunks seq chunkBuffer
                received_bytes := incoming.received_bytes + (chunkBuffer.length : Int) }
          let incoming3 := { incoming2 with updated_at := now }
          let s1 := { s with incomingTransfers := insertA s.incomingTransfers tid incoming3 }
          let nextSeq := nextMissingSeq incoming3
          let s2 := sendProtocol s1 "file.ack"
            { transfer_id := tidOpt, seq := some seq, next_seq := some nextSeq,
              received_bytes := some incoming3.received_bytes } (jsOrNone fromUuid)
          let s3 := queueEvent s2
            { type := "file_chunk_received", ts := now, transferId := tidOpt,
              seq := some seq, nextSeq := some nextSeq,
              receivedBytes := some incoming3.received_bytes,
              totalBytes := some incoming3.total_bytes }
          if incoming3.complete_received ∧ incoming3.total_chunks ≤ nextSeq then
            (maybeFinalizeIncomingTransfer ext s3 tid fromUuid now).1
          else s3

/-- The `file.complete` branch: mark `complete_received`, attempt
finalization, and nack with the first missing sequence when it is
not yet possible. -/
def handleFileComplete (ext : Ext) (s : Session) (fromUuid : Option String)
    (payload : Payload) (now : Int) : Session :=
  let tidOpt := payload.transfer_id
  let tid := tidOpt.getD ""
  match lookupA s.incomingTransfers tid with
  | none =>
    let s1 := sendProtocol s "file.nack"
      { transfer_id := tidOpt, expected_seq := some 0, reason := some "unknown_transfer" }
      (jsOrNone fromUuid)
    recordProtocolEvent s1
      { kind := "file.nack", fromUuid := jsOrNone fromUuid, transferId := tidOpt }
  | some incoming =>
    let incoming2 := { incoming with complete_received := true, updated_at := now }
    let s1 := { s with incomingTransfers := insertA s.incomingTransfers tid incoming2 }
    let fin := maybeFinalizeIncomingTransfer ext s1 tid fromUuid now
    let s2 := fin.1
    if fin.2 then s2
    else
      let cur := (lookupA s2.incomingTransfers tid).getD incoming2
      let expectedSeq := nextMissingSeq cur
      let reason := jsOrStr cur.last_error "missing_chunks"
      let s3 := sendProtocol s2 "file.nack"
        { transfer_id := tidOpt, expected_seq := some expectedSeq, reason := some reason }
        (jsOrNone fromUuid)
      recordProtocolEvent s3
        { kind := "file.nack", fromUuid := jsOrNone fromUuid, transferId := tidOpt,
          reason := some reason }

/-- The `file.resume_req` branch: report the first missing sequence
and status, or `unknown_transfer` with `next_seq = 0`. -/
def handleFileResumeReq (s : Session) (fromUuid : Option String)
    (payload : Payload) (_now : Int) : Session :=
  let tidOpt := payload.transfer_id
  let tid := tidOpt.getD ""
  let incoming := lookupA s.incomingTransfers tid
  let nextSeq := match incoming with
    | some t => nextMissingSeq t
    | none => 0
  let s1 := sendProtocol s "file.resume_state"
    { transfer_id := tidOpt, next_seq := some nextSeq,
      status := some (match incoming with
        | some t => t.status
        | none => "unknown_transfer") } (jsOrNone fromUuid)
  recordProtocolEvent s1
    { kind := "file.resume_state", fromUuid := jsOrNone fromUuid, transferId := tidOpt,
      nextSeq := some nextSeq }

/-- The `file.cancel` branch: mark cancelled and release storage;
the transfer stays in the registry. -/
def handleFileCancel (s : Session) (fromUuid : Option String)
    (payload : Payload) (now : Int) : Session :=
  let tidOpt := payload.transfer_id
  let tid := tidOpt.getD ""
  let s1 := match lookupA s.incomingTransfers tid with
    | some incoming =>
      let incoming2 := { incoming with
        status := "cancelled"
        updated_at := now
        spool_open := false
        spool_exists := if s.config.keepSpoolFiles then incoming.spool_exists else false }
      { s with incomingTransfers := insertA s.incomingTransfers tid incoming2 }
    | none => s
  let s2 := queueEvent s1
    { type := "file_transfer_cancelled", ts := now, transferId := tidOpt,
      uuid := jsOrNone fromUuid }
  recordProtocolEvent s2
    { kind := "file.cancel", fromUuid := jsOrNone fromUuid, transferId := tidOpt }

/-- The sender-side branch (`file.accept` / `file.ack` / `file.nack`
/ `file.complete_ack` / `file.resume_state`): update the outgoing
transfer record and publish the protocol-bus event the transmit loop
awaits. -/
def handleFileSenderReply (s : Session) (fromUuid : Option String) (kind : String)
    (payload : Payload) (now : Int) : Session :=
  let tidOpt := payload.transfer_id
  let s1 := match tidOpt with
    | none => s
    | some tid =>
      match lookupA s.outgoingTransfers tid with
      | none => s
      | some outgoing =>
        let o1 := { outgoing with updated_at := now }
        let o2 :=
          if kind = "file.accept" then
            { o1 with status := "transferring",
                      next_seq := nonNegativeIntFromValue payload.next_seq 0 }
          else if kind = "file.ack" then
            let seq := nonNegativeIntFromValue payload.seq (-1)
            let o := if 0 ≤ seq ∧ ¬ o1.acked_chunks.contains seq then
              { o1 with acked_chunks := o1.acked_chunks ++ [seq] } else o1
            { o with next_seq := nonNegativeIntFromValue payload.next_seq (o1.next_seq + 1) }
          else if kind = "file.nack" then
            { o1 with next_seq := nonNegativeIntFromValue payload.expected_seq o1.next_seq,
                      last_error := some (jsOrStr payload.reason "nack_received") }
          else if kind = "file.complete_ack" then
            { o1 with status := "completed", completed_at := some now }
          else if kind = "file.resume_state" then
            { o1 with next_seq := nonNegativeIntFromValue payload.next_seq o1.next_seq }
          else o1
        { s with outgoingTransfers := insertA s.outgoingTransfers tid o2 }
  recordProtocolEvent s1
    { kind := kind, fromUuid := jsOrNone fromUuid, transferId := tidOpt,
      reason := payload.reason, nextSeq := payload.next_seq }

/-- `handleFileMessage`: dispatch an inbound `file.*` envelope. -/
def handleFileMessage (ext : Ext) (s : Session) (fromUuid fromStreamID : Option String)
    (kind : String) (payload : Payload) (now : Int) : Session :=
  let tidOpt := payload.transfer_id
  if ¬ strTruthy tidOpt ∧ kind ≠ "file.resume_state" then
    queueEvent s
      { type := "file_protocol_error", ts := now, reason := some "missing_transfer_id",
        kind := some kind, uuid := jsOrNone fromUuid }
  else if kind = "file.offer" then handleFileOffer s fromUuid fromStreamID payload now
  else if kind = "file.chunk" then handleFileChunk ext s fromUuid payload now
  else if kind = "file.complete" then handleFileComplete ext s fromUuid payload now
  else if kind = "file.resume_req" then handleFileResumeReq s fromUuid payload now
  else if kind = "file.cancel" then handleFileCancel s fromUuid payload now
  else if kind = "file.accept" ∨ kind = "file.ack" ∨ kind = "file.nack" ∨
          kind = "file.complete_ack" ∨ kind = "file.resume_state" then
    handleFileSenderReply s fromUuid kind payload now
  else
    queueEvent s
      { type := "file_protocol_unhandled", ts := now, transferId := tidOpt,
        kind := some kind }

/-- View of an inbound payload as a state patch object (in JS the
same dynamic object flows through). -/
def patchOfPayload (p : Payload) : PatchObj :=
  { key := p.key, value := p.value, actor := p.actor, clock := p.clock,
    updated_at := p.updated_at }

/-- `handleStateMessage`: apply a remote patch, answer a snapshot
request, or merge a received snapshot entry by entry under the same
dominance rule. -/
def handleStateMessage (_ext : Ext) (s : Session) (fromUuid fromStreamID : Option String)
    (kind : String) (payload : Payload) (now : Int) : Session :=
  if kind = "state.patch" then
    let applyRes := applyStatePatch s (some (patchOfPayload payload)) now "remote"
    recordProtocolEvent applyRes.1
      { kind := kind, fromUuid := jsOrNone fromUuid,
        reason := if applyRes.2.applied then none else applyRes.2.reason }
  else if kind = "state.snapshot_req" then
    let s1 := sendProtocol s "state.snapshot" (getStateSnapshot s now) (jsOrNone fromUuid)
    recordProtocolEvent s1 { kind := "state.snapshot", fromUuid := jsOrNone fromUuid }
  else if kind = "state.snapshot" then
    let entries := match payload.entries with
      | some l => l.take s.config.stateMaxSnapshotEntries.toNat
      | none => []
    let step := fun (acc : Session × Nat) (e : PatchObj) =>
      ((applyStatePatch acc.1 (some e) now "remote_snapshot").1,
       if (applyStatePatch acc.1 (some e) now "remote_snapshot").2.applied then acc.2 + 1
       else acc.2)
    let folded := entries.foldl step (s, 0)
    let s1 := folded.1
    let appliedCount := folded.2
    let s2 := (payload.actor_clock.getD []).foldl
      (fun (st : Session) (p : String × Int) =>
        { st with stateActorClock :=
            markStateActorClock st.config.streamID st.stateActorClock p.1 (some p.2) })
      s1
    let s3 := recordProtocolEvent s2 { kind := kind, fromUuid := jsOrNone fromUuid }
    queueEvent s3
      { type := "state_snapshot_merged", ts := now, uuid := jsOrNone fromUuid,
        streamId := jsOrNone fromStreamID, applied := some (appliedCount : Int),
        offered := some (entries.length : Int) }
  else
    queueEvent s
      { type := "state_protocol_unhandled", ts := now, kind := some kind,
        uuid := jsOrNone fromUuid, streamId := jsOrNone fromStreamID }

/-- `handleProtocolMessage`: refresh the sender's peer record, verify
the session MAC of every non-`sync.` envelope before routing (a
failure emits `protocol_auth_failed` and drops the envelope), and
dispatch by kind prefix. -/
def handleProtocolMessage (ext : Ext) (s : Session) (detailUuid detailStreamID : Option String)
    (env : Envelope) (now : Int) : Session :=
  let fromUuid := jsOrNone detailUuid
  let fromStreamID := jsOrNone detailStreamID
  let kind := env.kind
  let payload := env.payload
  let s0 := match fromUuid with
    | some _ => touchPeer s fromUuid fromStreamID now
    | none => s
  if strStartsWith kind "sync." then
    handleSyncMessage ext s0 fromUuid fromStreamID kind payload now
  else if ¬ verifyEnvelopeMac ext s0 fromUuid env then
    let s1 := queueEvent s0
      { type := "protocol_auth_failed", ts := now, kind := some kind,
        uuid := fromUuid, streamId := fromStreamID }
    recordProtocolEvent s1
      { kind := "protocol_auth_failed", fromUuid := fromUuid, payloadKind := some kind }
  else if strStartsWith kind "file." then
    handleFileMessage ext s0 fromUuid fromStreamID kind payload now
  else if strStartsWith kind "state." then
    handleStateMessage ext s0 fromUuid fromStreamID kind payload now
  else
    queueEvent s0
      { type := "protocol_unknown", ts := now, kind := some kind,
        uuid := fromUuid, streamId := fromStreamID }

/-- The result of a `pollEvents` call: either an already-resolved
promise delivering events immediately, or a suspension bounded by
the given number of milliseconds which resolves early on the next
queued event. -/
inductive PollDecision
  | immediate (taken rest : List Event)
  | waitThen (ms : Int) (maxTake : Int)
deriving DecidableEq, Repr

/-- `pollEvents`: non-empty queue or a non-positive effective wait
resolve immediately with up to `maxEvents` events; otherwise suspend
for at most `min(waitMs, 30000)` milliseconds. -/
def pollEvents (q : List Event) (maxEvents waitMs : Option Int) : PollDecision :=
  let safeMax := intFromValue maxEvents 50
  let safeWait := min (intFromValue waitMs 0) 30000
  if 0 < q.length ∨ safeWait ≤ 0 then .immediate (q.take safeMax.toNat) (q.drop safeMax.toNat)
  else .waitThen safeWait safeMax

/-- The wait bound of the `file.complete_ack` phase:
`Math.max(ackTimeoutMs * 2, 1000)`. -/
def completionAckWaitMs (ackTimeoutMs : Int) : Int := max (ackTimeoutMs * 2) 1000

/-- Environment of the completion phase of `transmitOutgoingTransfer`:
whether the `file.complete_ack` arrived within the wait bound, and,
when the fallback `file.resume_req` is issued, the `next_seq` field
of the `file.resume_state` reply (outer `none`: no reply arrived). -/
structure CompletionEnv where
  completeAckArrives : Bool
  resumeReply : Option (Option Int) := none
deriving DecidableEq, Repr

/-- Observable outcome of the completion phase. -/
structure CompletionOutcome where
  status : String
  resumeReqsSent : Nat
  waitedMs : Int
  lastError : Option String := none
deriving DecidableEq, Repr

/-- `requestResumeState` as seen from the completion phase: one
`file.resume_req` is sent; a reply yields
`nonNegativeIntFromValue(next_seq, transfer.next_seq)`, no reply
yields `none`. -/
def requestResumeStateResult (t : OutgoingTransfer) (reply : Option (Option Int)) : Option Int :=
  match reply with
  | none => none
  | some ns => some (nonNegativeIntFromValue ns t.next_seq)

/-- The completion phase of `transmitOutgoingTransfer` (after the
transmit loop has sent every chunk): send `file.complete`, await
`file.complete_ack` for `max(2 * ackTimeoutMs, 1000)` ms; on timeout
issue exactly one `file.resume_req` and complete only when the
reported position covers every chunk. -/
def completeOutgoingPhase (t : OutgoingTransfer) (ackTimeoutMs : Int) (env : CompletionEnv) :
    CompletionOutcome :=
  let waited := completionAckWaitMs ackTimeoutMs
  if env.completeAckArrives then
    { status := "completed", resumeReqsSent := 0, waitedMs := waited, lastError := t.last_error }
  else
    match requestResumeStateResult t env.resumeReply with
    | some resumeSeq =>
      if t.total_chunks ≤ resumeSeq then
        { status := "completed", resumeReqsSent := 1, waitedMs := waited,
          lastError := t.last_error }
      else
        { status := "failed", resumeReqsSent := 1, waitedMs := waited,
          lastError := some "timed out waiting for file.complete_ack" }
    | none =>
      { status := "failed", resumeReqsSent := 1, waitedMs := waited,
        lastError := some "timed out waiting for file.complete_ack" }

/-! Theorems.  Each claim of the specification is settled by one
named theorem (with a witness when the statement carries hypotheses,
and a counterexample theorem when the claim as stated fails on the
code). -/

/-- A concrete instantiation of the external collaborators, used by
witnesses and counterexamples. -/
def extZero : Ext :=
  { sha256Hex := fun _ => "H"
    hmacSha256Hex := fun _ _ => "M"
    stringifySig := fun _ => "SIG"
    b64decode := fun _ => [7]
    hmacJoinB64 := fun _ _ => "S"
    tokenParse := fun _ => some {}
    deriveShared := fun _ => some "K"
    spoolHash := fun _ => "H"
    spoolSize := fun _ => 0 }

/-- C8: `pollEvents(maxEvents, waitMs)` resolves immediately with up
to `maxEvents` events whenever the queue is non-empty or the wait is
non-positive; on an empty queue with a positive wait it suspends for
at most `min(waitMs, 30000)` milliseconds (resolving early on the
next queued event). -/
theorem C8_pollEvents_wait_semantics (q : List Event) (m w : Int) (hm : 0 < m) :
    ((q ≠ [] ∨ w ≤ 0) →
      pollEvents q (some m) (some w) = PollDecision.immediate (q.take m.toNat) (q.drop m.toNat) ∧
      (q.take m.toNat).length ≤ m.toNat) ∧
    (q = [] → 0 < w →
      pollEvents q (some m) (some w) = PollDecision.waitThen (min w 30000) m ∧
      min w 30000 ≤ w ∧ min w 30000 ≤ 30000) := by
  have hmax : intFromValue (some m) 50 = m := by simp [intFromValue, hm]
  constructor
  · intro h
    have hcond : 0 < q.length ∨ min (intFromValue (some w) 0) 30000 ≤ 0 := by
      rcases h with h | h
      · exact Or.inl (List.length_pos.mpr h)
      · refine Or.inr ?_
        have hw : intFromValue (some w) 0 = 0 := by
          simp only [intFromValue]
          omega
        rw [hw]
        omega
    refine ⟨?_, ?_⟩
    · simp only [pollEvents, hmax]
      rw [if_pos hcond]
    · simp
  · intro hq hw
    subst hq
    have hwv : intFromValue (some w) 0 = w := by simp [intFromValue, hw]
    have hcond : ¬ (0 < ([] : List Event).length ∨ min (intFromValue (some w) 0) 30000 ≤ 0) := by
      rw [hwv]
      simp only [List.length_nil]
      omega
    refine ⟨?_, by omega, by omega⟩
    simp only [pollEvents, hmax]
    rw [if_neg hcond, hwv]

/-- C8 witness: with a single queued event and `waitMs = 0` the poll
resolves immediately with that event. -/
theorem C8_pollEvents_witness :
    pollEvents [{ type := "ready" }] (some 2) (some 0) =
      PollDecision.immediate [{ type := "ready" }] [] := by
  have h := (C8_pollEvents_wait_semantics [{ type := "ready" }] 2 0 (by norm_num)).1
    (Or.inl (by simp))
  exact h.1.trans (by decide)

/-- Outgoing transfer used by the C4 completion-phase instances. -/
def c4Transfer : OutgoingTransfer :=
  { transfer_id := "t4", status := "transferring", next_seq := 3, total_chunks := 3 }

/-- C4 counterexample: the completion phase awaits the
`file.complete_ack` for `max(2 * ack_timeout_ms, 1000)` ms, not
exactly `2 * ack_timeout_ms`: with `ack_timeout_ms = 400` the wait
is 1000 ms while the claim demands 800 ms. -/
theorem C4_counterexample :
    (completeOutgoingPhase c4Transfer 400
      { completeAckArrives := false, resumeReply := some (some 3) }).waitedMs = 1000 ∧
    (2 * 400 : Int) = 800 ∧ (1000 : Int) ≠ 800 := by decide

/-- C4 (amended): after the transmit loop, the sender awaits the
`file.complete_ack` for `max(2 * ack_timeout_ms, 1000)` ms; if the
ack arrives the transfer completes with no resume probe, and on
timeout exactly one `file.resume_req` is sent and the transfer
completes iff a `file.resume_state` reply arrives whose reported
position covers every chunk, failing otherwise. -/
theorem C4_completion_phase (t : OutgoingTransfer) (a : Int) (env : CompletionEnv) :
    (completeOutgoingPhase t a env).waitedMs = max (a * 2) 1000 ∧
    (env.completeAckArrives = true →
      (completeOutgoingPhase t a env).status = "completed" ∧
      (completeOutgoingPhase t a env).resumeReqsSent = 0) ∧
    (env.completeAckArrives = false →
      (completeOutgoingPhase t a env).resumeReqsSent = 1 ∧
      ((completeOutgoingPhase t a env).status = "completed" ↔
        ∃ ns, env.resumeReply = some ns ∧
          t.total_chunks ≤ nonNegativeIntFromValue ns t.next_seq)) := by
  refine ⟨?_, ?_, ?_⟩
  · cases hA : env.completeAckArrives <;>
      cases hR : env.resumeReply <;>
        simp [completeOutgoingPhase, completionAckWaitMs, requestResumeStateResult, hA, hR] <;>
          split <;> rfl
  · intro hA
    simp [completeOutgoingPhase, hA]
  · intro hA
    cases hR : env.resumeReply with
    | none =>
      simp [completeOutgoingPhase, hA, hR, requestResumeStateResult]
    | some ns =>
      by_cases hle : t.total_chunks ≤ nonNegativeIntFromValue ns t.next_seq
      · simp [completeOutgoingPhase, hA, hR, requestResumeStateResult, hle]
      · have hfail : (completeOutgoingPhase t a env).status = "failed" := by
          simp [completeOutgoingPhase, hA, hR, requestResumeStateResult, hle]
        refine ⟨by simp [completeOutgoingPhase, hA, hR, requestResumeStateResult, hle], ?_⟩
        constructor
        · intro h
          rw [hfail] at h
          exact absurd h (by decide)
        · rintro ⟨ns2, hns2, hle2⟩
          injection hns2 with h2
          subst h2
          exact absurd hle2 hle

/-- C4 witness: with the ack arriving the transfer completes. -/
theorem C4_completion_witness :
    (completeOutgoingPhase c4Transfer 1200 { completeAckArrives := true }).status = "completed" :=
  ((C4_completion_phase c4Transfer 1200 { completeAckArrives := true }).2.1 rfl).1

theorem applyStatePatch_config (s : Session) (p : Option PatchObj) (now : Int) (src : String) :
    (applyStatePatch s p now src).1.config = s.config := by
  unfold applyStatePatch
  cases p with
  | none => rfl
  | some patch =>
    dsimp only
    split
    · rfl
    · split
      · rfl
      · split
        · rfl
        · split
          · rfl
          · simp [queueEvent]

theorem applyStatePatch_size_le (s : Session) (p : Option PatchObj) (now : Int) (src : String)
    (hle : (s.roomState.length : Int) ≤ s.config.stateMaxKeys) :
    (((applyStatePatch s p now src).1.roomState.length : Int) ≤ s.config.stateMaxKeys) := by
  unfold applyStatePatch
  cases p with
  | none => exact hle
  | some patch =>
    dsimp only
    split
    · exact hle
    · split
      · exact hle
      · split
        · exact hle
        · split
          · exact hle
          · rename_i hguard
            simp only [queueEvent]
            by_cases hmem : lookupA s.roomState (jsTrim (patch.key.getD "")) = none
            · have hlen := length_insertA_not_mem s.roomState (jsTrim (patch.key.getD ""))
                (asStateEntry s.config.streamID (jsTrim (patch.key.getD "")) patch.value patch.actor
                  patch.clock (patch.updated_at.getD now)) hmem
              have hlt : (s.roomState.length : Int) < s.config.stateMaxKeys := by
                rcases not_and_or.mp hguard with h | h
                · exact absurd hmem h
                · omega
              simp only [asStateEntry] at hlen ⊢
              rw [hlen]
              push_cast
              omega
            · have hsome : (lookupA s.roomState (jsTrim (patch.key.getD ""))).isSome := by
                rcases h2 : lookupA s.roomState (jsTrim (patch.key.getD "")) with _ | v
                · exact absurd h2 hmem
                · simp
              have hlen := length_insertA_mem s.roomState (jsTrim (patch.key.getD ""))
                (asStateEntry s.config.streamID (jsTrim (patch.key.getD "")) patch.value patch.actor
                  patch.clock (patch.updated_at.getD now)) hsome
              simp only [asStateEntry] at hlen ⊢
              rw [hlen]
              exact hle

theorem applyStatePatch_reject_eq (s : Session) (p : Option PatchObj) (now : Int) (src : String) :
    (applyStatePatch s p now src).2.applied = false → (applyStatePatch s p now src).1 = s := by
  unfold applyStatePatch
  cases p with
  | none => intro _; rfl
  | some patch =>
    dsimp only
    split
    · intro _; rfl
    · split
      · intro _; rfl
      · split
        · intro _; rfl
        · split
          · intro _; rfl
          · intro h
            simp at h

theorem foldl_applyStatePatch_inv (now : Int) (src : String) :
    ∀ (entries : List PatchObj) (acc : Session × Nat),
      ((acc.1.roomState.length : Int) ≤ acc.1.config.stateMaxKeys) →
      ((entries.foldl (fun (a : Session × Nat) (e : PatchObj) =>
          ((applyStatePatch a.1 (some e) now src).1,
           if (applyStatePatch a.1 (some e) now src).2.applied then a.2 + 1 else a.2))
         acc).1.roomState.length : Int) ≤
       ((entries.foldl (fun (a : Session × Nat) (e : PatchObj) =>
          ((applyStatePatch a.1 (some e) now src).1,
           if (applyStatePatch a.1 (some e) now src).2.applied then a.2 + 1 else a.2))
         acc).1.config.stateMaxKeys)
  | [], _, h => h
  | e :: rest, acc, h => by
    have h1 := applyStatePatch_size_le acc.1 (some e) now src h
    have h2 := applyStatePatch_config acc.1 (some e) now src
    rw [← h2] at h1
    exact foldl_applyStatePatch_inv now src rest _ h1

theorem foldl_applyStatePatch_config (now : Int) (src : String) :
    ∀ (entries : List PatchObj) (acc : Session × Nat),
      ((entries.foldl (fun (a : Session × Nat) (e : PatchObj) =>
          ((applyStatePatch a.1 (some e) now src).1,
           if (applyStatePatch a.1 (some e) now src).2.applied then a.2 + 1 else a.2))
         acc).1.config) = acc.1.config
  | [], _ => rfl
  | e :: rest, acc =>
    (foldl_applyStatePatch_config now src rest _).trans
      (applyStatePatch_config acc.1 (some e) now src)

theorem foldl_actorClock_roomState (streamID : String) :
    ∀ (l : List (String × Int)) (st : Session),
      ((l.foldl (fun (a : Session) (p : String × Int) =>
          { a with stateActorClock :=
              markStateActorClock a.config.streamID a.stateActorClock p.1 (some p.2) }) st).roomState)
        = st.roomState
  | [], _ => rfl
  | p :: rest, st => foldl_actorClock_roomState streamID rest _

theorem foldl_actorClock_config (streamID : String) :
    ∀ (l : List (String × Int)) (st : Session),
      ((l.foldl (fun (a : Session) (p : String × Int) =>
          { a with stateActorClock :=
              markStateActorClock a.config.streamID a.stateActorClock p.1 (some p.2) }) st).config)
        = st.config
  | [], _ => rfl
  | p :: rest, st => foldl_actorClock_config streamID rest _

/-- Session used by the C2 instances: cap of one key, one key held. -/
def c2Session : Session :=
  { config := { streamID := "me", stateMaxKeys := 1 },
    roomState := [("a", { key := "a", actor := "A", clock := 1 })] }

/-- Observed store size after a local set (`none` when the set
throws). -/
def roomSizeAfterLocalSet (s : Session) (k v : Option String) (now : Int) : Option Nat :=
  match setLocalState s k v false none now with
  | .ok (s1, _) => some s1.roomState.length
  | .error _ => none

/-- C2 counterexample: `setLocalState` performs no key-cap check, so
a local set of a fresh key pushes the store one past
`state_max_keys`: with the cap at 1 and one key held, setting key
`b` yields a store of 2 entries. -/
theorem C2_counterexample :
    c2Session.config.stateMaxKeys = 1 ∧
    c2Session.roomState.length = 1 ∧
    roomSizeAfterLocalSet c2Session (some "b") none 5 = some 2 := by decide

/-- C2 (amended): the remote insert paths respect the cap — a
`state.patch` application never grows the store past
`state_max_keys` and rejects an over-cap fresh-key insert with
reason `state_key_limit_reached` leaving the session unchanged, and
a snapshot merge preserves the cap — while `setLocalState` inserts
without any cap check (see the counterexample). -/
theorem C2_state_key_cap (s : Session) (now : Int) (src : String) :
    (∀ p : Option PatchObj,
      (s.roomState.length : Int) ≤ s.config.stateMaxKeys →
      (((applyStatePatch s p now src).1.roomState.length : Int) ≤ s.config.stateMaxKeys)) ∧
    (∀ q : PatchObj,
      (jsTrim (q.key.getD "") ≠ "") →
      0 < intFromValue q.clock 0 →
      lookupA s.roomState (jsTrim (q.key.getD "")) = none →
      s.config.stateMaxKeys ≤ (s.roomState.length : Int) →
      (applyStatePatch s (some q) now src).2 =
        { applied := false, reason := some "state_key_limit_reached" } ∧
      (applyStatePatch s (some q) now src).1 = s) ∧
    (∀ (ext : Ext) (fu fs : Option String) (payload : Payload),
      (s.roomState.length : Int) ≤ s.config.stateMaxKeys →
      (((handleStateMessage ext s fu fs "state.snapshot" payload now).roomState.length : Int) ≤
        s.config.stateMaxKeys)) := by
  refine ⟨fun p h => applyStatePatch_size_le s p now src h, ?_, ?_⟩
  · intro q hk hc hnone hcap
    have hclock : ¬ ((asStateEntry s.config.streamID (jsTrim (q.key.getD "")) q.value q.actor
        q.clock (q.updated_at.getD now)).clock ≤ 0) := by
      simp only [asStateEntry]
      omega
    have hdom : stateShouldApply (lookupA s.roomState (jsTrim (q.key.getD "")))
        (asStateEntry s.config.streamID (jsTrim (q.key.getD "")) q.value q.actor q.clock
          (q.updated_at.getD now)) = true := by
      rw [hnone]
      rfl
    constructor
    · simp only [applyStatePatch]
      rw [if_neg hk, if_neg hclock, if_neg (by simp [hdom]), if_pos ⟨hnone, hcap⟩]
    · simp only [applyStatePatch]
      rw [if_neg hk, if_neg hclock, if_neg (by simp [hdom]), if_pos ⟨hnone, hcap⟩]
  · intro ext fu fs payload h
    simp only [handleStateMessage, reduceIte, queueEvent, recordProtocolEvent]
    rw [foldl_actorClock_roomState s.config.streamID]
    have hinv := foldl_applyStatePatch_inv now "remote_snapshot"
      (match payload.entries with
        | some l => l.take s.config.stateMaxSnapshotEntries.toNat
        | none => []) (s, 0) h
    have hcfg := foldl_applyStatePatch_config now "remote_snapshot"
      (match payload.entries with
        | some l => l.take s.config.stateMaxSnapshotEntries.toNat
        | none => []) (s, 0)
    rw [hcfg] at hinv
    exact hinv

/-- Patch used by the C2 witness. -/
def c2Patch : PatchObj := { key := some "b", clock := some 1 }

/-- C2 witness: an over-cap fresh-key remote patch on the concrete
session is rejected with `state_key_limit_reached`. -/
theorem C2_state_key_cap_witness :
    (applyStatePatch c2Session (some c2Patch) 3 "remote").2 =
      { applied := false, reason := some "state_key_limit_reached" } := by
  have h := (C2_state_key_cap c2Session 3 "remote").2.1 c2Patch
    (by decide) (by decide) (by decide) (by decide)
  exact h.1

theorem stateShouldApply_some_iff (e incoming : StateEntry) :
    (stateShouldApply (some e) incoming = true ↔
      (intFromValue (some e.clock) 0 < intFromValue (some incoming.clock) 0 ∨
       (intFromValue (some e.clock) 0 = intFromValue (some incoming.clock) 0 ∧
        jsStrLt e.actor incoming.actor = true))) := by
  simp only [stateShouldApply]
  by_cases h1 : intFromValue (some e.clock) 0 < intFromValue (some incoming.clock) 0
  · simp [h1]
  · by_cases h2 : intFromValue (some incoming.clock) 0 < intFromValue (some e.clock) 0
    · simp [h1, h2]
      omega
    · have heq : intFromValue (some e.clock) 0 = intFromValue (some incoming.clock) 0 := by omega
      simp [h1, h2, heq]

theorem stateShouldApply_self (sid k : String) (v : Option String) (a : Option String)
    (c : Option Int) (u u2 : Int) :
    stateShouldApply (some (asStateEntry sid k v a c u)) (asStateEntry sid k v a c u2) = false := by
  simp [stateShouldApply, asStateEntry, jsStrLt_irrefl]

theorem applyStatePatch_cases (s : Session) (q : PatchObj) (now : Int) (src : String) :
    ((applyStatePatch s (some q) now src).1 = s ∧
     (applyStatePatch s (some q) now src).2.applied = false) ∨
    ((applyStatePatch s (some q) now src).2.applied = true ∧
     stateShouldApply (lookupA s.roomState (jsTrim (q.key.getD "")))
       (asStateEntry s.config.streamID (jsTrim (q.key.getD "")) q.value q.actor q.clock
         (q.updated_at.getD now)) = true ∧
     (applyStatePatch s (some q) now src).1.roomState =
       insertA s.roomState (jsTrim (q.key.getD ""))
         (asStateEntry s.config.streamID (jsTrim (q.key.getD "")) q.value q.actor q.clock
           (q.updated_at.getD now)) ∧
     (applyStatePatch s (some q) now src).1.stateActorClock =
       markStateActorClock s.config.streamID s.stateActorClock
         (asStateEntry s.config.streamID (jsTrim (q.key.getD "")) q.value q.actor q.clock
           (q.updated_at.getD now)).actor
         (some (asStateEntry s.config.streamID (jsTrim (q.key.getD "")) q.value q.actor q.clock
           (q.updated_at.getD now)).clock) ∧
     (applyStatePatch s (some q) now src).1.stateClock =
       max s.stateClock
         (intFromValue (lookupA
           (markStateActorClock s.config.streamID s.stateActorClock
             (asStateEntry s.config.streamID (jsTrim (q.key.getD "")) q.value q.actor q.clock
               (q.updated_at.getD now)).actor
             (some (asStateEntry s.config.streamID (jsTrim (q.key.getD "")) q.value q.actor
               q.clock (q.updated_at.getD now)).clock))
           s.config.streamID) 0)) := by
  unfold applyStatePatch
  dsimp only
  split
  · exact Or.inl ⟨rfl, rfl⟩
  · split
    · exact Or.inl ⟨rfl, rfl⟩
    · split
      · exact Or.inl ⟨rfl, rfl⟩
      · split
        · exact Or.inl ⟨rfl, rfl⟩
        · rename_i hkey hclock hstale hcap
          refine Or.inr ⟨rfl, ?_, ?_, ?_, ?_⟩
          · simpa using hstale
          · simp [queueEvent, asStateEntry]
          · simp [queueEvent, asStateEntry]
          · simp [queueEvent, asStateEntry]

theorem stateShouldApply_updatedAt (ex : Option StateEntry) (sid k : String)
    (v a2 : Option String) (c : Option Int) (u1 u2 : Int) :
    stateShouldApply ex (asStateEntry sid k v a2 c u1) =
      stateShouldApply ex (asStateEntry sid k v a2 c u2) := by
  cases ex <;> rfl

theorem applyStatePatch_applied_iff (s : Session) (q : PatchObj) (now : Int) (src : String) :
    (applyStatePatch s (some q) now src).2.applied = true ↔
    (jsTrim (q.key.getD "") ≠ "" ∧ 0 < intFromValue q.clock 0 ∧
     stateShouldApply (lookupA s.roomState (jsTrim (q.key.getD "")))
       (asStateEntry s.config.streamID (jsTrim (q.key.getD "")) q.value q.actor q.clock 0) = true ∧
     ¬(lookupA s.roomState (jsTrim (q.key.getD "")) = none ∧
       s.config.stateMaxKeys ≤ (s.roomState.length : Int))) := by
  unfold applyStatePatch
  dsimp only
  split
  · rename_i hk
    simp [hk]
  · rename_i hk
    split
    · rename_i hcl
      simp only [asStateEntry] at hcl
      constructor
      · intro h
        simp at h
      · rintro ⟨_, hc, _, _⟩
        omega
    · rename_i hcl
      have hc : 0 < intFromValue q.clock 0 := by
        simp only [asStateEntry] at hcl
        omega
      split
      · rename_i hstale
        rw [stateShouldApply_updatedAt _ _ _ _ _ _ (q.updated_at.getD now) 0] at hstale
        constructor
        · intro h
          simp at h
        · rintro ⟨_, _, hdom, _⟩
          exact absurd hdom (by simpa using hstale)
      · rename_i hstale
        rw [stateShouldApply_updatedAt _ _ _ _ _ _ (q.updated_at.getD now) 0] at hstale
        split
        · rename_i hcap
          constructor
          · intro h
            simp at h
          · rintro ⟨_, _, _, hncap⟩
            exact absurd hcap hncap
        · rename_i hcap
          constructor
          · intro _
            exact ⟨hk, hc, by simpa using hstale, hcap⟩
          · intro _
            simp [queueEvent]

/-- C6: remote state-patch application is exactly last-writer-wins —
for a valid patch within the key cap, the incoming entry is applied
iff there is no existing entry, or its clock is strictly larger, or
the clocks tie and its actor is lexicographically larger — and
applying the same patch twice leaves the store (entries, actor-clock
map, and state clock) equal to applying it once. -/
theorem C6_lww_merge_idempotent (s : Session) (q : PatchObj) (now now2 : Int) (src : String) :
    ((jsTrim (q.key.getD "") ≠ "") →
     0 < intFromValue q.clock 0 →
     (lookupA s.roomState (jsTrim (q.key.getD "")) ≠ none ∨
       (s.roomState.length : Int) < s.config.stateMaxKeys) →
     ((applyStatePatch s (some q) now src).2.applied = true ↔
       (∀ e, lookupA s.roomState (jsTrim (q.key.getD "")) = some e →
         intFromValue (some e.clock) 0 < intFromValue q.clock 0 ∨
         (intFromValue (some e.clock) 0 = intFromValue q.clock 0 ∧
          jsStrLt e.actor (jsOrStr q.actor s.config.streamID) = true)))) ∧
    ((applyStatePatch (applyStatePatch s (some q) now src).1 (some q) now2 src).1.roomState =
       (applyStatePatch s (some q) now src).1.roomState ∧
     (applyStatePatch (applyStatePatch s (some q) now src).1 (some q) now2 src).1.stateActorClock =
       (applyStatePatch s (some q) now src).1.stateActorClock ∧
     (applyStatePatch (applyStatePatch s (some q) now src).1 (some q) now2 src).1.stateClock =
       (applyStatePatch s (some q) now src).1.stateClock) := by
  have hic : intFromValue (some (intFromValue q.clock 0)) 0 = intFromValue q.clock 0 := by
    cases q.clock with
    | none => rfl
    | some n =>
      simp only [intFromValue]
      by_cases h : 0 < n
      · simp [h]
      · simp [h]
  constructor
  · intro hk hc hcap
    rw [applyStatePatch_applied_iff]
    have hncap : ¬(lookupA s.roomState (jsTrim (q.key.getD "")) = none ∧
        s.config.stateMaxKeys ≤ (s.roomState.length : Int)) := by
      rcases hcap with h | h
      · exact fun hx => h hx.1
      · exact fun hx => by omega
    constructor
    · rintro ⟨_, _, hdom, _⟩ e he
      rw [he] at hdom
      rw [stateShouldApply_some_iff] at hdom
      simpa [asStateEntry, hic] using hdom
    · intro hall
      refine ⟨hk, hc, ?_, hncap⟩
      rcases hEE : lookupA s.roomState (jsTrim (q.key.getD "")) with _ | e
      · rfl
      · apply (stateShouldApply_some_iff e _).mpr
        have := hall e hEE
        simpa [asStateEntry, hic] using this
  · by_cases happ : (applyStatePatch s (some q) now src).2.applied = true
    · rcases applyStatePatch_cases s q now src with ⟨_, hfalse⟩ | ⟨_, _, hroom, _, _⟩
      · rw [happ] at hfalse
        exact absurd hfalse (by decide)
      · have hrej : (applyStatePatch (applyStatePatch s (some q) now src).1 (some q) now2
            src).2.applied = false := by
          rw [Bool.eq_false_iff]
          intro h2
          have h3 := (applyStatePatch_applied_iff _ q now2 src).mp h2
          rcases h3 with ⟨_, _, hdom, _⟩
          rw [hroom] at hdom
          rw [lookupA_insertA_self] at hdom
          rw [applyStatePatch_config] at hdom
          rw [stateShouldApply_self] at hdom
          exact absurd hdom (by decide)
        have heq := applyStatePatch_reject_eq (applyStatePatch s (some q) now src).1 (some q)
          now2 src hrej
        rw [heq]
        exact ⟨rfl, rfl, rfl⟩
    · have hfalse : (applyStatePatch s (some q) now src).2.applied = false :=
        Bool.eq_false_iff.mpr happ
      have heq1 := applyStatePatch_reject_eq s (some q) now src hfalse
      have hfalse2 : (applyStatePatch s (some q) now2 src).2.applied = false := by
        rw [Bool.eq_false_iff]
        intro h2
        exact happ ((applyStatePatch_applied_iff s q now src).mpr
          ((applyStatePatch_applied_iff s q now2 src).mp h2))
      have heq2 := applyStatePatch_reject_eq s (some q) now2 src hfalse2
      rw [heq1, heq2]
      exact ⟨rfl, rfl, rfl⟩

/-- Patch used by the C6 witness. -/
def c6Patch : PatchObj := { key := some "k", clock := some 2, actor := some "A" }

/-- Base session used by the C6 witness. -/
def c6Base : Session := { config := { streamID := "me" } }

/-- C6 witness: a fresh-key patch applies on an empty store, and a
second application of the same patch leaves the store unchanged. -/
theorem C6_lww_witness :
    ((applyStatePatch c6Base (some c6Patch) 1 "remote").2.applied = true) ∧
    ((applyStatePatch (applyStatePatch c6Base (some c6Patch) 1 "remote").1
        (some c6Patch) 9 "remote").1.roomState =
      (applyStatePatch c6Base (some c6Patch) 1 "remote").1.roomState) := by
  constructor
  · apply ((C6_lww_merge_idempotent c6Base c6Patch 1 9 "remote").1
      (by decide) (by decide) (Or.inr (by decide))).mpr
    intro e he
    simp [c6Base, lookupA] at he
  · exact (C6_lww_merge_idempotent c6Base c6Patch 1 9 "remote").2.1

/-- The acceptance condition of claim C7, read literally from the
specification: the token splits into a body and signature, the
recomputed HMAC matches, the body parses, room and stream id match
when present, and `exp > now`. -/
def c7ClaimAccepts (ext : Ext) (cfg : Config) (token : String) (streamID : Option String)
    (now : Int) : Bool :=
  let parts := jsSplitDot token
  (parts.length == 2) &&
  ((parts.drop 1).headD "" == ext.hmacJoinB64 (cfg.joinTokenSecret.getD "") (parts.headD "")) &&
  (match ext.tokenParse (parts.headD "") with
   | none => false
   | some payload =>
     (match payload.room with
      | some r => r == cfg.room
      | none => true) &&
     (match payload.stream_id with
      | some sid => some sid == streamID
      | none => true) &&
     (match payload.exp with
      | some e => decide (now < e)
      | none => false))

/-- Configuration used by the C7 instances. -/
def c7Cfg : Config := { room := "r", streamID := "me", joinTokenSecret := some "k" }

/-- C7 counterexample: the code accepts a well-signed token whose
payload carries no `exp` at all, while the claim requires
`exp > now`; with the abstract codecs fixed, token `b.S` is accepted
by `validateJoinToken` although the claimed acceptance condition is
false. -/
theorem C7_counterexample :
    (validateJoinToken extZero c7Cfg (some "b.S") none 100).ok = true ∧
    c7ClaimAccepts extZero c7Cfg "b.S" none 100 = false := by decide

/-- C7 (amended): with a configured secret and a non-empty presented
token, verification accepts iff the token splits on `.` into exactly
a body and a signature, the signature equals the recomputed HMAC of
the body (plain string equality), the body parses, the payload's
room — when present and non-empty — equals the session room, the
payload's stream id — when it and the peer's stream id are both
present and non-empty — equals the peer's, and the payload's expiry
— when present, finite and non-zero — satisfies `exp ≥ now`
(tokens without an expiry never expire). -/
theorem verifyJoinToken_ok_iff (ext : Ext) (token secret : String) (htok : token ≠ "") :
    ((verifyJoinToken ext token secret).ok = true ↔
      ((jsSplitDot token).length = 2 ∧
       ((jsSplitDot token).drop 1).headD "" =
         ext.hmacJoinB64 secret ((jsSplitDot token).headD "") ∧
       (ext.tokenParse ((jsSplitDot token).headD "")).isSome = true)) ∧
    ((verifyJoinToken ext token secret).ok = true →
      (verifyJoinToken ext token secret).payload =
        ext.tokenParse ((jsSplitDot token).headD "")) := by
  unfold verifyJoinToken
  rw [if_neg htok]
  by_cases hlen : (jsSplitDot token).length = 2
  · rw [if_neg (by simpa using hlen)]
    by_cases hsig : ((jsSplitDot token).drop 1).headD "" =
        ext.hmacJoinB64 secret ((jsSplitDot token).headD "")
    · rw [if_neg (by simpa using hsig)]
      cases hp : ext.tokenParse ((jsSplitDot token).headD "") with
      | none =>
        refine ⟨⟨fun h => by simp at h, ?_⟩, fun h => by simp at h⟩
        rintro ⟨_, _, hps⟩
        simp at hps
      | some payload =>
        exact ⟨⟨fun _ => ⟨hlen, hsig, rfl⟩, fun _ => rfl⟩, fun _ => rfl⟩
    · rw [if_pos (by simpa using hsig)]
      refine ⟨⟨fun h => by simp at h, ?_⟩, fun h => by simp at h⟩
      rintro ⟨_, hs2, _⟩
      exact absurd hs2 hsig
  · rw [if_pos (by simpa using hlen)]
    refine ⟨⟨fun h => by simp at h, ?_⟩, fun h => by simp at h⟩
    rintro ⟨hl2, _⟩
    exact absurd hl2 hlen

/-- C7 (amended): with a configured secret and a non-empty presented
token, verification accepts iff the token splits on `.` into exactly
a body and a signature, the signature equals the recomputed HMAC of
the body (plain string equality), the body parses, the payload's
room — when present and non-empty — equals the session room, the
payload's stream id — when it and the peer's stream id are both
present and non-empty — equals the peer's, and the payload's expiry
— when present, finite and non-zero — satisfies `exp ≥ now`
(tokens without an expiry never expire). -/
theorem C7_token_verification (ext : Ext) (cfg : Config) (tok : String) (sid : Option String)
    (now : Int) (sec : String) (hsec : cfg.joinTokenSecret = some sec) (htok : tok ≠ "") :
    ((validateJoinToken ext cfg (some tok) sid now).ok = true ↔
      ((jsSplitDot tok).length = 2 ∧
       ((jsSplitDot tok).drop 1).headD "" = ext.hmacJoinB64 sec ((jsSplitDot tok).headD "") ∧
       ∃ payload, ext.tokenParse ((jsSplitDot tok).headD "") = some payload ∧
         (strTruthy payload.room = true → payload.room = some cfg.room) ∧
         ((strTruthy payload.stream_id = true ∧ strTruthy sid = true) →
           payload.stream_id = sid) ∧
         (∀ e, payload.exp = some e → e ≠ 0 → now ≤ e))) := by
  have htr : strTruthy (some tok) = true := by simp [strTruthy, htok]
  have hv := verifyJoinToken_ok_iff ext tok sec htok
  simp only [validateJoinToken, hsec, Option.getD_some]
  rw [if_neg (by simp [htr])]
  by_cases hok : (verifyJoinToken ext tok sec).ok = true
  · rw [if_neg (by simp [hok])]
    obtain ⟨hlen, hsig, hps⟩ := hv.1.mp hok
    have hpv := hv.2 hok
    rcases hq : ext.tokenParse ((jsSplitDot tok).headD "") with _ | pl
    · rw [hq] at hps
      simp at hps
    · rw [hq] at hpv
      rw [hpv, Option.getD_some]
      by_cases hroom : strTruthy pl.room = true ∧ pl.room ≠ some cfg.room
      · rw [if_pos hroom]
        constructor
        · intro h
          simp at h
        · rintro ⟨_, _, pl2, hpl2, hroom2, _, _⟩
          injection hpl2 with hpe
          subst hpe
          exact absurd (hroom2 hroom.1) hroom.2
      · rw [if_neg hroom]
        by_cases hstream : strTruthy pl.stream_id = true ∧ strTruthy sid = true ∧
            pl.stream_id ≠ sid
        · rw [if_pos hstream]
          constructor
          · intro h
            simp at h
          · rintro ⟨_, _, pl2, hpl2, _, hsid2, _⟩
            injection hpl2 with hpe
            subst hpe
            exact absurd (hsid2 ⟨hstream.1, hstream.2.1⟩) hstream.2.2
        · rw [if_neg hstream]
          cases hexp : pl.exp with
          | some e =>
            dsimp only
            by_cases hlt : e ≠ 0 ∧ e < now
            · rw [if_pos hlt]
              constructor
              · intro h
                simp at h
              · rintro ⟨_, _, pl2, hpl2, _, _, hexp2⟩
                injection hpl2 with hpe
                subst hpe
                have := hexp2 e hexp hlt.1
                omega
            · rw [if_neg hlt]
              simp only [true_iff]
              refine ⟨hlen, hsig, pl, rfl, ?_, ?_, ?_⟩
              · intro h
                by_contra hne
                exact hroom ⟨h, hne⟩
              · intro h
                by_contra hne
                exact hstream ⟨h.1, h.2, hne⟩
              · intro e2 he2 hne2
                rw [hexp] at he2
                injection he2 with he3
                rcases not_and_or.mp hlt with h | h
                · rw [he3] at h
                  exact absurd (not_not.mp h) hne2
                · rw [he3] at h
                  omega
          | none =>
            dsimp only
            simp only [true_iff]
            refine ⟨hlen, hsig, pl, rfl, ?_, ?_, ?_⟩
            · intro h
              by_contra hne
              exact hroom ⟨h, hne⟩
            · intro h
              by_contra hne
              exact hstream ⟨h.1, h.2, hne⟩
            · intro e2 he2 _
              rw [hexp] at he2
              cases he2
  · rw [if_pos (by simpa using hok)]
    have hfalse : (verifyJoinToken ext tok sec).ok = false := Bool.eq_false_iff.mpr hok
    rw [hfalse]
    constructor
    · intro h
      simp at h
    · rintro ⟨hlen, hsig, pl, hpl, _⟩
      exact absurd (hv.1.mpr ⟨hlen, hsig, by rw [hpl]; rfl⟩) hok

/-- C7 witness: the amended acceptance condition applied at a
concrete token that the code accepts. -/
theorem C7_token_verification_witness :
    (validateJoinToken extZero c7Cfg (some "b.S") none 100).ok = true := by
  apply (C7_token_verification extZero c7Cfg "b.S" none 100 "k" rfl (by decide)).mpr
  refine ⟨by decide, by decide, {}, rfl, ?_, ?_, ?_⟩
  · intro h
    simp [strTruthy] at h
  · rintro ⟨h, _⟩
    simp [strTruthy] at h
  · intro e he _
    cases he

theorem touchPeer_shape (s : Session) (u sid : Option String) (now : Int) :
    ∃ ps, touchPeer s u sid now = { s with peerState := ps } := by
  unfold touchPeer
  cases u with
  | none => exact ⟨s.peerState, rfl⟩
  | some v =>
    dsimp only
    by_cases hv : v = ""
    · rw [if_pos hv]
      exact ⟨s.peerState, rfl⟩
    · rw [if_neg hv]
      exact ⟨_, rfl⟩

theorem updatePeer_shape (s : Session) (u : Option String) (f : Peer → Peer) :
    ∃ ps, updatePeer s u f = { s with peerState := ps } := by
  unfold updatePeer
  cases u with
  | none => exact ⟨s.peerState, rfl⟩
  | some v =>
    dsimp only
    by_cases hv : v = ""
    · rw [if_pos hv]
      exact ⟨s.peerState, rfl⟩
    · rw [if_neg hv]
      cases lookupA s.peerState v with
      | none => exact ⟨s.peerState, rfl⟩
      | some p => exact ⟨_, rfl⟩

theorem touchPeer_lookup (s : Session) (u : String) (hu : u ≠ "") (sid : Option String)
    (now : Int) :
    lookupA (touchPeer s (some u) sid now).peerState u =
      some { (match lookupA s.peerState u with
              | some p => p
              | none => { uuid := u }) with
             connected := true
             last_seen_at := now
             stream_id := if strTruthy sid then sid
               else (match lookupA s.peerState u with
                     | some p => p
                     | none => ({ uuid := u } : Peer)).stream_id } := by
  unfold touchPeer
  dsimp only
  rw [if_neg hu]
  exact lookupA_insertA_self _ _ _

theorem updatePeer_lookup (s : Session) (u : String) (hu : u ≠ "") (f : Peer → Peer)
    (p : Peer) (hp : lookupA s.peerState u = some p) :
    lookupA (updatePeer s (some u) f).peerState u = some (f p) := by
  unfold updatePeer
  dsimp only
  rw [if_neg hu, hp]
  exact lookupA_insertA_self _ _ _

theorem insertA_insertA {κ α : Type} [DecidableEq κ] (l : List (κ × α)) (k : κ) (v w : α) :
    insertA (insertA l k v) k w = insertA l k w := by
  induction l with
  | nil => simp [insertA]
  | cons h t ih =>
    by_cases hk : h.1 = k
    · simp [insertA, hk]
    · simp [insertA, hk, ih]

/-- Session used by the C3 instances: a non-empty allowlist that
does not contain the sender's stream id. -/
def c3Session : Session :=
  { config := { room := "r", streamID := "me", allowPeerStreamIDs := ["ok1"] } }

/-- C3 counterexample: on a `sync.hello` from a disallowed stream id
the session marks the peer rejected and records a local protocol
event of kind `sync.reject`, but hands no `sync.reject` envelope to
the transport — the send log stays empty — and the stored rejection
reason is `peer not on allowlist`, not `peer_not_allowed`. -/
theorem C3_counterexample :
    (handleSyncMessage extZero c3Session (some "u1") (some "bad") "sync.hello" {} 5).sends
      = [] ∧
    (lookupA (handleSyncMessage extZero c3Session (some "u1") (some "bad") "sync.hello" {}
        5).peerState "u1").map (fun p => p.handshake_state) = some "rejected" ∧
    (lookupA (handleSyncMessage extZero c3Session (some "u1") (some "bad") "sync.hello" {}
        5).peerState "u1").map (fun p => p.rejected_reason) =
      some (some "peer not on allowlist") ∧
    (handleSyncMessage extZero c3Session (some "u1") (some "bad") "sync.hello" {}
        5).protocolEvents =
      [{ kind := "sync.reject", fromUuid := some "u1", reason := some "peer_not_allowed",
         cursor := 1 }] := by decide

/-- C3 (amended): a `sync.hello` from a peer whose non-empty stream
id is absent from a non-empty allowlist marks the peer rejected
(`auth_ok = false`, stored reason `peer not on allowlist`), queues a
`sync_peer_rejected` event with reason `peer_not_allowed`, records a
local protocol event of kind `sync.reject` — without sending any
envelope to the peer — and drops the hello with no hello-ack, no
capability storage, and no key derivation. -/
theorem C3_allowlist_reject (ext : Ext) (s : Session) (u sid : String) (payload : Payload)
    (now : Int) (hu : u ≠ "") (hsid : sid ≠ "")
    (hne : s.config.allowPeerStreamIDs.isEmpty = false)
    (hnot : s.config.allowPeerStreamIDs.contains sid = false) :
    (handleSyncMessage ext s (some u) (some sid) "sync.hello" payload now).sends = s.sends ∧
    (handleSyncMessage ext s (some u) (some sid) "sync.hello" payload now).sharedKeys =
      s.sharedKeys ∧
    (handleSyncMessage ext s (some u) (some sid) "sync.hello" payload now).roomState =
      s.roomState ∧
    (handleSyncMessage ext s (some u) (some sid) "sync.hello" payload now).incomingTransfers =
      s.incomingTransfers ∧
    (handleSyncMessage ext s (some u) (some sid) "sync.hello" payload now).outgoingTransfers =
      s.outgoingTransfers ∧
    (∃ p, lookupA (handleSyncMessage ext s (some u) (some sid) "sync.hello" payload
        now).peerState u = some p ∧
      p.handshake_state = "rejected" ∧ p.auth_ok = false ∧
      p.rejected_reason = some "peer not on allowlist" ∧
      p.capabilities = (match lookupA s.peerState u with
        | some p0 => p0.capabilities
        | none => none) ∧
      p.token_payload = (match lookupA s.peerState u with
        | some p0 => p0.token_payload
        | none => none)) ∧
    (handleSyncMessage ext s (some u) (some sid) "sync.hello" payload now).eventQueue =
      pushBounded s.config.maxQueueSize s.eventQueue
        { type := "sync_peer_rejected", ts := now, uuid := some u, streamId := some sid,
          reason := some "peer_not_allowed" } ∧
    (handleSyncMessage ext s (some u) (some sid) "sync.hello" payload now).protocolEvents =
      pushPBounded s.protocolEvents
        { kind := "sync.reject", fromUuid := some u, reason := some "peer_not_allowed",
          cursor := s.protocolCursor + 1 } := by
  have hallow : isPeerAllowed s.config (some sid) = false := by
    simp only [isPeerAllowed, hne]
    simp [strTruthy, hsid]
    simpa using hnot
  have htr : strTruthy (some sid) = true := by simp [strTruthy, hsid]
  have hcond : strTruthy (some sid) = true ∧ ¬ isPeerAllowed s.config (some sid) = true := by
    exact ⟨htr, by simp [hallow]⟩
  unfold handleSyncMessage
  rw [if_pos hcond]
  have hlook1 := touchPeer_lookup s u hu (some sid) now
  have hlook2 := updatePeer_lookup (touchPeer s (some u) (some sid) now) u hu
    (fun p => { p with handshake_state := "rejected", auth_ok := false, rejected_reason := some "peer not on allowlist" }) _ hlook1
  obtain ⟨ps1, h1⟩ := touchPeer_shape s (some u) (some sid) now
  obtain ⟨ps2, h2⟩ := updatePeer_shape (touchPeer s (some u) (some sid) now) (some u)
    (fun p => { p with handshake_state := "rejected", auth_ok := false, rejected_reason := some "peer not on allowlist" })
  rw [h2] at hlook2
  rw [h2, h1]
  refine ⟨?_, ?_, ?_, ?_, ?_, ?_, ?_, ?_⟩
  · simp [queueEvent, recordProtocolEvent]
  · simp [queueEvent, recordProtocolEvent]
  · simp [queueEvent, recordProtocolEvent]
  · simp [queueEvent, recordProtocolEvent]
  · simp [queueEvent, recordProtocolEvent]
  · simp only [queueEvent, recordProtocolEvent]
    exact ⟨_, hlook2, rfl, rfl, rfl,
      by cases hL : lookupA s.peerState u <;> simp [hL],
      by cases hL : lookupA s.peerState u <;> simp [hL]⟩
  · simp [queueEvent, recordProtocolEvent, jsOrNone, strTruthy, hu, hsid]
  · simp [queueEvent, recordProtocolEvent, jsOrNone, strTruthy, hu, hsid]

/-- C3 witness: the amended rejection behaviour at a concrete
session — the queued event carries reason `peer_not_allowed`. -/
theorem C3_allowlist_reject_witness :
    (handleSyncMessage extZero c3Session (some "u1") (some "bad") "sync.hello" {}
        5).eventQueue =
      [{ type := "sync_peer_rejected", ts := 5, uuid := some "u1", streamId := some "bad",
         reason := some "peer_not_allowed" }] := by
  have h := C3_allowlist_reject extZero c3Session "u1" "bad" {} 5 (by decide) (by decide)
    (by decide) (by decide)
  exact (h.2.2.2.2.2.2.1).trans (by decide)

/-- C9: with `enforce_join_token` set but no secret configured,
admission checks only token presence — any non-empty `join_token`
string validates as ok with a null payload, independently of the
cryptographic collaborators, and the peer is admitted with
`auth_ok = true` and no stored token payload. -/
theorem C9_token_presence_only (ext ext2 : Ext) (s : Session) (u sid tok : String) (now : Int)
    (hsec : s.config.joinTokenSecret = none)
    (henf : s.config.enforceJoinToken = true)
    (htok : tok ≠ "") (hu : u ≠ "") (hsid : sid ≠ "")
    (hallow : isPeerAllowed s.config (some sid) = true) :
    validateJoinToken ext s.config (some tok) (some sid) now = { ok := true } ∧
    validateJoinToken ext s.config (some tok) (some sid) now =
      validateJoinToken ext2 s.config (some tok) (some sid) now ∧
    (∃ p, lookupA (handleSyncMessage ext s (some u) (some sid) "sync.hello"
        { join_token := some tok } now).peerState u = some p ∧
      p.auth_ok = true ∧ p.token_payload = none ∧ p.handshake_state = "hello_received") := by
  have htr : strTruthy (some tok) = true := by simp [strTruthy, htok]
  have hv : validateJoinToken ext s.config (some tok) (some sid) now = { ok := true } := by
    simp only [validateJoinToken, hsec]
    rw [if_neg (fun hx => hx.2 htr)]
  have hv2 : validateJoinToken ext2 s.config (some tok) (some sid) now = { ok := true } := by
    simp only [validateJoinToken, hsec]
    rw [if_neg (fun hx => hx.2 htr)]
  refine ⟨hv, hv.trans hv2.symm, ?_⟩
  unfold handleSyncMessage
  rw [if_neg (fun hx => hx.2 hallow)]
  rw [if_neg (by decide : ¬ ("sync.hello" = "sync.heartbeat"))]
  rw [if_neg (fun hx => hx.1 rfl)]
  rw [if_neg (by decide : ¬ ("sync.hello" = "sync.reject"))]
  dsimp only
  rw [hv]
  rw [if_neg (fun hx => hx.1 rfl)]
  simp only [sendProtocol, queueEvent, recordProtocolEvent, strTruthy, reduceIte]
  exact ⟨_, updatePeer_lookup _ u hu _ _ (touchPeer_lookup s u hu (some sid) now),
    rfl, rfl, rfl⟩

/-- Session used by the C9 witness. -/
def c9Session : Session := { config := { room := "r", streamID := "me", enforceJoinToken := true } }

/-- C9 witness: on the concrete session a hello with join token `t`
admits the peer with `auth_ok = true` and no stored payload. -/
theorem C9_token_presence_only_witness :
    (lookupA (handleSyncMessage extZero c9Session (some "u1") (some "b") "sync.hello"
        { join_token := some "t" } 4).peerState "u1").map (fun p => p.auth_ok) = some true := by
  obtain ⟨p, hp, hauth, -, -⟩ :=
    (C9_token_presence_only extZero extZero c9Session "u1" "b" "t" 4 rfl rfl
      (by decide) (by decide) (by decide) (by decide)).2.2
  rw [hp]
  simp [hauth]

theorem isPrefixOf_state_not_file (l : List Char)
    (h : ("state.".data).isPrefixOf l = true) : ("file.".data).isPrefixOf l = false := by
  have hs : "state.".data = 's' :: "tate.".data := rfl
  have hf : "file.".data = 'f' :: "ile.".data := rfl
  rw [hs] at h
  rw [hf]
  cases l with
  | nil => exact absurd h (by decide)
  | cons c cs =>
    simp only [List.isPrefixOf, Bool.and_eq_true, beq_iff_eq] at h
    obtain ⟨hc, -⟩ := h
    subst hc
    simp only [List.isPrefixOf]
    rw [show (('f' : Char) == 's') = false from rfl]
    simp

theorem startsWith_state_not_file (k : String) (h : strStartsWith k "state." = true) :
    strStartsWith k "file." = false := by
  unfold strStartsWith at h ⊢
  exact isPrefixOf_state_not_file k.data h

theorem verifyEnvelopeMac_touchPeer (ext : Ext) (s : Session) (u sid : Option String)
    (now : Int) (uuid : Option String) (env : Envelope) :
    verifyEnvelopeMac ext (touchPeer s u sid now) uuid env = verifyEnvelopeMac ext s uuid env := by
  obtain ⟨ps, h⟩ := touchPeer_shape s u sid now
  rw [h]
  rfl

/-- C1: a non-`sync.` envelope is routed to its engine iff the MAC
rule holds — a non-empty `mac` string requires a stored shared key
for the sending uuid and equality with the recomputed HMAC, while an
absent (or empty) `mac` passes iff `require_session_mac` is unset —
and a dropped envelope adds exactly one `protocol_auth_failed` event
while leaving the state store, the transfer registries, the shared
keys, and the send log unchanged (only the sender's peer-presence
record is refreshed before the check). -/
theorem C1_mac_gate (ext : Ext) (s : Session) (du ds : Option String) (env : Envelope)
    (now : Int) (hns : strStartsWith env.kind "sync." = false) :
    (verifyEnvelopeMac ext s (jsOrNone du) env = true ↔
      (match env.mac with
       | some m =>
         if m = "" then s.config.requireSessionMac = false
         else ∃ k, ((jsOrNone du).bind (fun u2 => lookupA s.sharedKeys u2)) = some k ∧
           m = computeEnvelopeMac ext k env
       | none => s.config.requireSessionMac = false)) ∧
    (verifyEnvelopeMac ext s (jsOrNone du) env = false →
      ((handleProtocolMessage ext s du ds env now).roomState = s.roomState ∧
       (handleProtocolMessage ext s du ds env now).stateActorClock = s.stateActorClock ∧
       (handleProtocolMessage ext s du ds env now).stateClock = s.stateClock ∧
       (handleProtocolMessage ext s du ds env now).incomingTransfers = s.incomingTransfers ∧
       (handleProtocolMessage ext s du ds env now).outgoingTransfers = s.outgoingTransfers ∧
       (handleProtocolMessage ext s du ds env now).completedIncomingOrder =
         s.completedIncomingOrder ∧
       (handleProtocolMessage ext s du ds env now).sharedKeys = s.sharedKeys ∧
       (handleProtocolMessage ext s du ds env now).sends = s.sends ∧
       (handleProtocolMessage ext s du ds env now).eventQueue =
         pushBounded s.config.maxQueueSize s.eventQueue
           { type := "protocol_auth_failed", ts := now, kind := some env.kind,
             uuid := jsOrNone du, streamId := jsOrNone ds })) ∧
    (verifyEnvelopeMac ext s (jsOrNone du) env = true →
      ((strStartsWith env.kind "file." = true →
        handleProtocolMessage ext s du ds env now =
          handleFileMessage ext (match jsOrNone du with
            | some _ => touchPeer s (jsOrNone du) (jsOrNone ds) now
            | none => s) (jsOrNone du) (jsOrNone ds) env.kind env.payload now) ∧
       (strStartsWith env.kind "state." = true →
        handleProtocolMessage ext s du ds env now =
          handleStateMessage ext (match jsOrNone du with
            | some _ => touchPeer s (jsOrNone du) (jsOrNone ds) now
            | none => s) (jsOrNone du) (jsOrNone ds) env.kind env.payload now))) := by
  have hbridge : verifyEnvelopeMac ext (match jsOrNone du with
      | some _ => touchPeer s (jsOrNone du) (jsOrNone ds) now
      | none => s) (jsOrNone du) env = verifyEnvelopeMac ext s (jsOrNone du) env := by
    cases jsOrNone du with
    | none => rfl
    | some v => exact verifyEnvelopeMac_touchPeer ext s (some v) (jsOrNone ds) now (some v) env
  refine ⟨?_, ?_, ?_⟩
  · unfold verifyEnvelopeMac
    cases hm : env.mac with
    | none => simp
    | some m =>
      dsimp only
      by_cases hme : m = ""
      · subst hme
        simp
      · have hne : (m != "") = true := by simp [hme]
        rw [if_pos hne, if_neg hme]
        cases hd : jsOrNone du with
        | none =>
          constructor
          · intro h
            exact Bool.noConfusion (show false = true from h)
          · rintro ⟨k, hk, -⟩
            exact Option.noConfusion (show (none : Option String) = some k from hk)
        | some v =>
          cases hk : lookupA s.sharedKeys v with
          | none =>
            constructor
            · intro h
              have h2 : (match lookupA s.sharedKeys v with
                  | none => false
                  | some k => some m == some (computeEnvelopeMac ext k env)) = true := h
              rw [hk] at h2
              exact Bool.noConfusion h2
            · rintro ⟨k, hk2, -⟩
              have hk3 : lookupA s.sharedKeys v = some k := hk2
              rw [hk] at hk3
              cases hk3
          | some k =>
            constructor
            · intro h
              have h2 : (match lookupA s.sharedKeys v with
                  | none => false
                  | some k => some m == some (computeEnvelopeMac ext k env)) = true := h
              rw [hk] at h2
              refine ⟨k, hk, ?_⟩
              simpa using h2
            · rintro ⟨k2, hk2, hmac⟩
              have hk3 : lookupA s.sharedKeys v = some k2 := hk2
              rw [hk] at hk3
              injection hk3 with hk4
              subst hk4
              have h2 : (match lookupA s.sharedKeys v with
                  | none => false
                  | some k => some m == some (computeEnvelopeMac ext k env)) = true := by
                rw [hk]
                simpa using hmac
              exact h2
  · intro hfail
    unfold handleProtocolMessage
    rw [if_neg (by simp [hns])]
    rw [if_pos (by rw [hbridge, hfail]; simp)]
    cases hd : jsOrNone du with
    | none =>
      simp [queueEvent, recordProtocolEvent]
    | some v =>
      dsimp only
      obtain ⟨ps, hps⟩ := touchPeer_shape s (some v) (jsOrNone ds) now
      rw [hps]
      simp [queueEvent, recordProtocolEvent]
  · intro hok
    constructor
    · intro hfile
      unfold handleProtocolMessage
      rw [if_neg (by simp [hns])]
      rw [if_neg (by rw [hbridge, hok]; simp)]
      rw [if_pos hfile]
    · intro hstate
      unfold handleProtocolMessage
      rw [if_neg (by simp [hns])]
      rw [if_neg (by rw [hbridge, hok]; simp)]
      have hnf : strStartsWith env.kind "file." = false :=
        startsWith_state_not_file env.kind hstate
      rw [if_neg (by simp [hnf]), if_pos hstate]

/-- Session used by the C1 witness (`require_session_mac` set). -/
def c1Session : Session :=
  { config := { room := "r", streamID := "me", requireSessionMac := true } }

/-- Envelope used by the C1 witness: a `state.patch` without a MAC. -/
def c1Env : Envelope := { kind := "state.patch" }

/-- C1 witness: with `require_session_mac` set, a MAC-less
`state.patch` envelope is dropped — one `protocol_auth_failed` event,
nothing sent, no engine-state change. -/
theorem C1_mac_gate_witness :
    (handleProtocolMessage extZero c1Session (some "u1") (some "sx") c1Env 7).sends = [] ∧
    (handleProtocolMessage extZero c1Session (some "u1") (some "sx") c1Env 7).eventQueue =
      [{ type := "protocol_auth_failed", ts := 7, kind := some "state.patch",
         uuid := some "u1", streamId := some "sx" }] := by
  have hns : strStartsWith c1Env.kind "sync." = false := by decide
  have hfail : verifyEnvelopeMac extZero c1Session (jsOrNone (some "u1")) c1Env = false := by
    decide
  have h := (C1_mac_gate extZero c1Session (some "u1") (some "sx") c1Env 7 hns).2.1 hfail
  refine ⟨?_, ?_⟩
  · exact h.2.2.2.2.2.2.2.1.trans (by decide)
  · exact h.2.2.2.2.2.2.2.2.trans (by decide)

/-- Completed one-chunk transfer used by the C5 counterexample. -/
def c5Transfer : IncomingTransfer :=
  { transfer_id := "t5", status := "completed", total_bytes := 1, total_chunks := 1,
    chunk_bytes := 1024, file_hash := some "H", received_chunks := [0],
    chunks := [(0, [7])], received_bytes := 1, complete_received := true,
    completed_at := some 1, data := some [7] }

/-- Session used by the C5 counterexample. -/
def c5Session : Session :=
  { config := { streamID := "me" },
    incomingTransfers := [("t5", c5Transfer)],
    completedIncomingOrder := ["t5"] }

/-- Duplicate chunk envelope payload used by the C5 instances. -/
def c5Chunk : Payload := { transfer_id := some "t5", seq := some 0, data_base64 := some "x" }

/-- C5 counterexample: a duplicate chunk for an already-completed
transfer whose sender had signalled completion re-runs finalization —
the completed-order list gains a second entry for the same transfer
(and `file_received` / `file.complete_ack` are re-emitted) — so the
handling is not a no-op beyond the ACK. -/
theorem C5_counterexample :
    c5Transfer.received_chunks.contains 0 = true ∧
    c5Session.completedIncomingOrder = ["t5"] ∧
    (handleFileMessage extZero c5Session (some "u") none "file.chunk" c5Chunk
        9).completedIncomingOrder = ["t5", "t5"] := by decide

/-- C5 (amended): a valid duplicate `file.chunk` performs no chunk
store and no spool write, leaves `received_chunks` and
`received_bytes` unchanged (only `updated_at` is refreshed), and
sends a `file.ack`; when the transfer is not already finalizable the
handling is exactly the ACK, the `file_chunk_received` event, and
the timestamp refresh, while an already-finalizable transfer
additionally re-runs finalization. -/
theorem C5_duplicate_chunk (ext : Ext) (s : Session) (fu fs : Option String) (tid : String)
    (t : IncomingTransfer) (seqv : Int) (payload : Payload) (now : Int)
    (htid : payload.transfer_id = some tid) (htne : tid ≠ "")
    (hlook : lookupA s.incomingTransfers tid = some t)
    (hseq : nonNegativeIntFromValue payload.seq (-1) = seqv)
    (h0 : 0 ≤ seqv) (hlt : seqv < t.total_chunks)
    (hbuf : (ext.b64decode (jsOrStr payload.data_base64 "")).isEmpty = false)
    (hhash : ¬ (strTruthy payload.chunk_hash = true ∧
      payload.chunk_hash ≠ some (ext.sha256Hex (ext.b64decode (jsOrStr payload.data_base64 "")))))
    (hdup : t.received_chunks.contains seqv = true) :
    (({ t with updated_at := now } : IncomingTransfer).received_chunks = t.received_chunks ∧
     ({ t with updated_at := now } : IncomingTransfer).received_bytes = t.received_bytes ∧
     ({ t with updated_at := now } : IncomingTransfer).chunks = t.chunks ∧
     ({ t with updated_at := now } : IncomingTransfer).spoolData = t.spoolData) ∧
    (¬ (t.complete_received = true ∧
        t.total_chunks ≤ nextMissingSeq ({ t with updated_at := now })) →
      handleFileMessage ext s fu fs "file.chunk" payload now =
        queueEvent (sendProtocol
          { s with incomingTransfers :=
              insertA s.incomingTransfers tid { t with updated_at := now } }
          "file.ack"
          { transfer_id := payload.transfer_id, seq := some seqv,
            next_seq := some (nextMissingSeq ({ t with updated_at := now })),
            received_bytes := some t.received_bytes } (jsOrNone fu))
          { type := "file_chunk_received", ts := now, transferId := payload.transfer_id,
            seq := some seqv, nextSeq := some (nextMissingSeq ({ t with updated_at := now })),
            receivedBytes := some t.received_bytes, totalBytes := some t.total_bytes }) ∧
    ((t.complete_received = true ∧
        t.total_chunks ≤ nextMissingSeq ({ t with updated_at := now })) →
      handleFileMessage ext s fu fs "file.chunk" payload now =
        (maybeFinalizeIncomingTransfer ext
          (queueEvent (sendProtocol
            { s with incomingTransfers :=
                insertA s.incomingTransfers tid { t with updated_at := now } }
            "file.ack"
            { transfer_id := payload.transfer_id, seq := some seqv,
              next_seq := some (nextMissingSeq ({ t with updated_at := now })),
              received_bytes := some t.received_bytes } (jsOrNone fu))
            { type := "file_chunk_received", ts := now, transferId := payload.transfer_id,
              seq := some seqv,
              nextSeq := some (nextMissingSeq ({ t with updated_at := now })),
              receivedBytes := some t.received_bytes, totalBytes := some t.total_bytes })
          tid fu now).1) := by
  have htr : strTruthy (some tid) = true := by simp [strTruthy, htne]
  refine ⟨⟨rfl, rfl, rfl, rfl⟩, ?_, ?_⟩
  · intro hnofin
    unfold handleFileMessage
    rw [htid]
    rw [if_neg (fun hx => hx.1 (by simp [htr]))]
    rw [if_neg (by decide), if_pos rfl]
    unfold handleFileChunk
    rw [htid]
    dsimp only [Option.getD_some]
    rw [hlook]
    dsimp only
    rw [hseq]
    rw [if_neg (by omega)]
    rw [if_neg (by simp [hbuf])]
    rw [if_neg hhash]
    rw [if_pos hdup]
    rw [if_neg hnofin]
  · intro hfin
    unfold handleFileMessage
    rw [htid]
    rw [if_neg (fun hx => hx.1 (by simp [htr]))]
    rw [if_neg (by decide), if_pos rfl]
    unfold handleFileChunk
    rw [htid]
    dsimp only [Option.getD_some]
    rw [hlook]
    dsimp only
    rw [hseq]
    rw [if_neg (by omega)]
    rw [if_neg (by simp [hbuf])]
    rw [if_neg hhash]
    rw [if_pos hdup]
    rw [if_pos hfin]

/-- Mid-flight two-chunk transfer used by the C5 witness. -/
def c5MidTransfer : IncomingTransfer :=
  { transfer_id := "t5b", status := "receiving", total_bytes := 2, total_chunks := 2,
    chunk_bytes := 1, received_chunks := [0], chunks := [(0, [7])], received_bytes := 1 }

/-- Session used by the C5 witness. -/
def c5MidSession : Session :=
  { config := { streamID := "me" },
    incomingTransfers := [("t5b", c5MidTransfer)] }

/-- Duplicate chunk payload used by the C5 witness. -/
def c5Chunk2 : Payload := { transfer_id := some "t5b", seq := some 0, data_base64 := some "x" }

theorem C5_duplicate_chunk_witness :
    handleFileMessage extZero c5MidSession (some "u") none "file.chunk" c5Chunk2 9 =
      queueEvent (sendProtocol
        { c5MidSession with incomingTransfers :=
            (insertA c5MidSession.incomingTransfers "t5b"
              { c5MidTransfer with updated_at := 9 }) }
        "file.ack"
        { transfer_id := c5Chunk2.transfer_id, seq := some 0,
          next_seq := some (nextMissingSeq ({ c5MidTransfer with updated_at := 9 })),
          received_bytes := some c5MidTransfer.received_bytes } (jsOrNone (some "u")))
        { type := "file_chunk_received", ts := 9, transferId := c5Chunk2.transfer_id,
          seq := some 0,
          nextSeq := some (nextMissingSeq ({ c5MidTransfer with updated_at := 9 })),
          receivedBytes := some c5MidTransfer.received_bytes,
          totalBytes := some c5MidTransfer.total_bytes } := by
  exact (C5_duplicate_chunk extZero c5MidSession (some "u") none "t5b" c5MidTransfer 0 c5Chunk2 9
    (by decide) (by decide) (by decide) (by decide) (by decide) (by decide) (by decide)
    (by decide) (by decide)).2.1 (by decide)

theorem lookupA_insertA_ne {κ α : Type} [DecidableEq κ] (l : List (κ × α)) (k id : κ) (v : α)
    (h : k ≠ id) : lookupA (insertA l k v) id = lookupA l id := by
  induction l with
  | nil => simp [insertA, lookupA, h]
  | cons p t ih =>
    obtain ⟨k1, v1⟩ := p
    simp only [insertA]
    by_cases hk : k1 = k
    · rw [if_pos hk]
      simp only [lookupA]
      rw [if_neg h, if_neg (hk ▸ h)]
    · rw [if_neg hk]
      simp only [lookupA]
      by_cases h2 : k1 = id
      · rw [if_pos h2, if_pos h2]
      · rw [if_neg h2, if_neg h2]
        exact ih

theorem lookupA_eraseA_ne {κ α : Type} [DecidableEq κ] (l : List (κ × α)) (k id : κ)
    (h : k ≠ id) : lookupA (eraseA l k) id = lookupA l id := by
  induction l with
  | nil => simp [eraseA, lookupA]
  | cons p t ih =>
    obtain ⟨k1, v1⟩ := p
    simp only [eraseA]
    by_cases hk : k1 = k
    · rw [if_pos hk]
      simp only [lookupA]
      rw [if_neg (hk ▸ h)]
    · rw [if_neg hk]
      simp only [lookupA]
      by_cases h2 : k1 = id
      · rw [if_pos h2, if_pos h2]
      · rw [if_neg h2, if_neg h2]
        exact ih

/-- Every id retained by the eviction loop came from the input order
list. -/
theorem evict_order_mem (c : Int) (o : List String) (m : List (String × IncomingTransfer))
    (id : String) (h : id ∈ (evictIncomingLoop c o m).1) : id ∈ o := by
  induction o generalizing m with
  | nil => simpa [evictIncomingLoop] using h
  | cons a rest ih =>
    rw [evictIncomingLoop] at h
    by_cases hlen : c < (((a :: rest).length : Nat) : Int)
    · rw [if_pos hlen] at h
      by_cases ha : a = ""
      · rw [if_pos ha] at h
        exact List.mem_cons_of_mem a (ih m h)
      · rw [if_neg ha] at h
        exact List.mem_cons_of_mem a (ih (eraseA m a) h)
    · rw [if_neg hlen] at h
      exact h

/-- Every registry entry deleted by the eviction loop had its id on
the input order list. -/
theorem evict_delete_mem (c : Int) (o : List String) (m : List (String × IncomingTransfer))
    (id : String) (h1 : (lookupA m id).isSome = true)
    (h2 : lookupA (evictIncomingLoop c o m).2 id = none) : id ∈ o := by
  induction o generalizing m with
  | nil =>
    rw [evictIncomingLoop] at h2
    rw [h2] at h1
    exact absurd h1 (by simp)
  | cons a rest ih =>
    rw [evictIncomingLoop] at h2
    by_cases hlen : c < (((a :: rest).length : Nat) : Int)
    · rw [if_pos hlen] at h2
      by_cases ha : a = ""
      · rw [if_pos ha] at h2
        exact List.mem_cons_of_mem a (ih m h1 h2)
      · rw [if_neg ha] at h2
        by_cases hid : a = id
        · exact hid ▸ List.mem_cons_self a rest
        · have h1b : (lookupA (eraseA m a) id).isSome = true := by
            rw [lookupA_eraseA_ne m a id hid]
            exact h1
          exact List.mem_cons_of_mem a (ih (eraseA m a) h1b h2)
    · rw [if_neg hlen] at h2
      rw [h2] at h1
      exact absurd h1 (by simp)

/-- With a cap of at least one, the eviction loop never deletes the
entry for the id at the tail of the order list (the transfer just
completed), provided that id does not also occur earlier. -/
theorem evict_keep_last (c : Int) (hc : 1 ≤ c) (pre : List String) (tid : String)
    (m : List (String × IncomingTransfer)) (hte : tid ∉ pre) :
    lookupA (evictIncomingLoop c (pre ++ [tid]) m).2 tid = lookupA m tid := by
  induction pre generalizing m with
  | nil =>
    rw [List.nil_append, evictIncomingLoop]
    rw [if_neg (by simp; omega)]
  | cons a ps ih =>
    have h1 : tid ≠ a := fun h => hte (by rw [h]; exact List.mem_cons_self a ps)
    have h2 : tid ∉ ps := fun h => hte (List.mem_cons_of_mem a h)
    rw [List.cons_append, evictIncomingLoop]
    by_cases hlen : c < (((a :: (ps ++ [tid])).length : Nat) : Int)
    · rw [if_pos hlen]
      by_cases ha : a = ""
      · rw [if_pos ha]
        exact ih m h2
      · rw [if_neg ha]
        rw [ih (eraseA m a) h2]
        exact lookupA_eraseA_ne m a tid (fun hh => h1 hh.symm)
    · rw [if_neg hlen]

/-- Case analysis of `maybeFinalizeIncomingTransfer`: either it
reports failure, leaving the completed-order list untouched and the
registry either unchanged or holding the same transfer re-marked
`failed`; or it reports success, and both the order list and the
registry are the output of the eviction loop run on the old order
extended by this id, over the registry holding the transfer marked
`completed`. -/
theorem maybeFinalize_cases (ext : Ext) (s : Session) (tid : String) (fu : Option String)
    (now : Int) :
    ((maybeFinalizeIncomingTransfer ext s tid fu now).2 = false ∧
     (maybeFinalizeIncomingTransfer ext s tid fu now).1.completedIncomingOrder =
       s.completedIncomingOrder ∧
     ((maybeFinalizeIncomingTransfer ext s tid fu now).1.incomingTransfers =
        s.incomingTransfers ∨
      ∃ t2 : IncomingTransfer, t2.status = "failed" ∧
        (maybeFinalizeIncomingTransfer ext s tid fu now).1.incomingTransfers =
          insertA s.incomingTransfers tid t2)) ∨
    ((maybeFinalizeIncomingTransfer ext s tid fu now).2 = true ∧
     ∃ t2 : IncomingTransfer, t2.status = "completed" ∧
       (maybeFinalizeIncomingTransfer ext s tid fu now).1.completedIncomingOrder =
         (evictIncomingLoop s.config.maxStoredFiles (s.completedIncomingOrder ++ [tid])
           (insertA s.incomingTransfers tid t2)).1 ∧
       (maybeFinalizeIncomingTransfer ext s tid fu now).1.incomingTransfers =
         (evictIncomingLoop s.config.maxStoredFiles (s.completedIncomingOrder ++ [tid])
           (insertA s.incomingTransfers tid t2)).2) := by
  unfold maybeFinalizeIncomingTransfer
  split
  · exact Or.inl ⟨rfl, rfl, Or.inl rfl⟩
  · split
    · exact Or.inl ⟨rfl, rfl, Or.inl rfl⟩
    · dsimp only
      split
      · repeat' split
        all_goals
          first
          | exact Or.inl ⟨rfl, rfl, Or.inl rfl⟩
          | exact Or.inl ⟨rfl, rfl, Or.inr ⟨_, rfl, rfl⟩⟩
      · split
        · exact Or.inl ⟨rfl, rfl, Or.inr ⟨_, rfl, rfl⟩⟩
        · exact Or.inr ⟨rfl, _, rfl, rfl, rfl⟩

/-- C10: only transfers that reach status `completed` ever enter the
bounded eviction list.  (i) A finalization that fails leaves
`completedIncomingOrder` untouched and keeps the transfer in the
registry (unchanged, or re-stored marked `failed`); (ii) a successful
finalization adds only this transfer's id to the order list, stores
it with status `completed`, and every registry entry it deletes was
on the completed-order list — so the `maxStoredFiles` cap bounds
completed transfers only, never evicting failed, cancelled or
stalled receiving transfers; (iii) `file.cancel` keeps the transfer
in the registry marked `cancelled` and never touches the eviction
list. -/
theorem C10_eviction_scope (ext : Ext) (s : Session) (tid : String) (fu : Option String)
    (now : Int) (payload : Payload)
    (hcap : 1 ≤ s.config.maxStoredFiles)
    (hfresh : tid ∉ s.completedIncomingOrder) :
    ((maybeFinalizeIncomingTransfer ext s tid fu now).2 = false →
      (maybeFinalizeIncomingTransfer ext s tid fu now).1.completedIncomingOrder =
        s.completedIncomingOrder ∧
      ((maybeFinalizeIncomingTransfer ext s tid fu now).1.incomingTransfers =
         s.incomingTransfers ∨
       ∃ t2 : IncomingTransfer, t2.status = "failed" ∧
         (maybeFinalizeIncomingTransfer ext s tid fu now).1.incomingTransfers =
           insertA s.incomingTransfers tid t2)) ∧
    ((maybeFinalizeIncomingTransfer ext s tid fu now).2 = true →
      (∃ t2 : IncomingTransfer, t2.status = "completed" ∧
        lookupA (maybeFinalizeIncomingTransfer ext s tid fu now).1.incomingTransfers tid =
          some t2) ∧
      (∀ id, id ∈ (maybeFinalizeIncomingTransfer ext s tid fu now).1.completedIncomingOrder →
        id = tid ∨ id ∈ s.completedIncomingOrder) ∧
      (∀ id, (lookupA s.incomingTransfers id).isSome = true →
        lookupA (maybeFinalizeIncomingTransfer ext s tid fu now).1.incomingTransfers id = none →
        id ∈ s.completedIncomingOrder)) ∧
    (∀ t : IncomingTransfer, payload.transfer_id = some tid →
      lookupA s.incomingTransfers tid = some t →
      (handleFileCancel s fu payload now).completedIncomingOrder = s.completedIncomingOrder ∧
      lookupA (handleFileCancel s fu payload now).incomingTransfers tid =
        some { t with
                status := "cancelled"
                updated_at := now
                spool_open := false
                spool_exists := if s.config.keepSpoolFiles then t.spool_exists else false }) := by
  refine ⟨?_, ?_, ?_⟩
  · intro hf
    rcases maybeFinalize_cases ext s tid fu now with h | h
    · exact ⟨h.2.1, h.2.2⟩
    · rw [h.1] at hf
      exact absurd hf (by decide)
  · intro ht
    rcases maybeFinalize_cases ext s tid fu now with h | h
    · rw [h.1] at ht
      exact absurd ht (by decide)
    · obtain ⟨-, t2, ht2, hord, hreg⟩ := h
      refine ⟨⟨t2, ht2, ?_⟩, ?_, ?_⟩
      · rw [hreg, evict_keep_last s.config.maxStoredFiles hcap s.completedIncomingOrder tid
          (insertA s.incomingTransfers tid t2) hfresh, lookupA_insertA_self]
      · intro id hid
        rw [hord] at hid
        rcases List.mem_append.mp (evict_order_mem _ _ _ _ hid) with hin | hin
        · exact Or.inr hin
        · exact Or.inl (List.mem_singleton.mp hin)
      · intro id hsome hnone
        rw [hreg] at hnone
        by_cases hid : id = tid
        · rw [hid, evict_keep_last s.config.maxStoredFiles hcap s.completedIncomingOrder tid
            (insertA s.incomingTransfers tid t2) hfresh, lookupA_insertA_self] at hnone
          exact absurd hnone (by simp)
        · have hsome2 : (lookupA (insertA s.incomingTransfers tid t2) id).isSome = true := by
            rw [lookupA_insertA_ne s.incomingTransfers tid id t2 (fun hh => hid hh.symm)]
            exact hsome
          rcases List.mem_append.mp
              (evict_delete_mem s.config.maxStoredFiles (s.completedIncomingOrder ++ [tid])
                (insertA s.incomingTransfers tid t2) id hsome2 hnone) with hin | hin
          · exact hin
          · exact absurd (List.mem_singleton.mp hin) hid
  · intro t hpt hlook
    unfold handleFileCancel
    rw [hpt]
    dsimp only [Option.getD_some]
    rw [hlook]
    exact ⟨rfl, lookupA_insertA_self _ _ _⟩

/-- One-chunk transfer ready to finalize, used by the C10 witness. -/
def c10Transfer : IncomingTransfer :=
  { transfer_id := "t10", status := "receiving", total_bytes := 1, total_chunks := 1,
    chunk_bytes := 1, received_chunks := [0], chunks := [(0, [7])], received_bytes := 1 }

/-- Session used by the C10 witness. -/
def c10Session : Session :=
  { config := { streamID := "me" },
    incomingTransfers := [("t10", c10Transfer)] }

theorem C10_eviction_scope_witness :
    ∃ t2 : IncomingTransfer, t2.status = "completed" ∧
      lookupA (maybeFinalizeIncomingTransfer extZero c10Session "t10" (some "u")
        5).1.incomingTransfers "t10" = some t2 :=
  ((C10_eviction_scope extZero c10Session "t10" (some "u") 5 {} (by decide)
    (by decide)).2.1 (by decide)).1

end Bridge
